import Mathlib

/-!
Verification development for the `simple-jira-agents` repository.

Shallow embedding of the modules the claims concern:
  * `tools/blast_radius_engine.py` — `analyze_blast_radius` and its helpers;
  * `llm/agents/admin_validator.py` — `process_admin_request` (classification,
    modify path, create path) and `_extract_description`;
  * `llm/agents/l1_triage_bot.py` — `_extract_description`;
  * `llm/ollama_client.py` — `call_ollama`, `_clean_response_text`,
    `_get_structured_fallback`;
  * `workflows/hygiene_engine.py` — `HygieneEngine.process`;
  * `rules/stale_tickets.py` — `StaleTicketRule._build_jql` and its clause
    helpers;
  * `jira_api.py` — `JiraAPI.check_duplicate_field`.

Modelling conventions: Python strings are Lean `String`s (scanning is done on
`List Char`); Python dicts whose shape is fixed become structures, a key that
may be absent becomes an `Option` field.  Read-only HTTP responses consumed by
an agent are supplied through an environment record (an oracle), while the
agent's own mutating Jira calls are recorded as an explicit effect trace.
External library behaviour (the `requests` transport, `json.loads`) is likewise
supplied through the environment, since those are dependencies, not repository
code.
-/

namespace JiraAgents

/-- ASCII lower-casing, mirroring Python `str.lower` on the ASCII texts involved. -/
def lowerStr (s : String) : String := String.mk (s.toList.map Char.toLower)

/-- Substring containment on character lists (Python `needle in haystack`). -/
def containsSubL (needle : List Char) : List Char → Bool
  | [] => needle.isEmpty
  | c :: rest => needle.isPrefixOf (c :: rest) || containsSubL needle rest

/-- Substring containment on strings (Python `needle in haystack`). -/
def containsSub (needle haystack : String) : Bool :=
  containsSubL needle.toList haystack.toList

/-- Python regex word character (`\w`): ASCII letter, digit or underscore. -/
def isWordChar (c : Char) : Bool := c.isAlphanum || c = '_'

/-- Does the regex `\b w \b` match at the current position?  `prev` is the
character immediately before the position (none at the start of the text).
All words used in the source are alphabetic, so the two boundary checks
reduce to the neighbouring characters being non-word characters. -/
def wordMatchHere (w : List Char) (prev : Option Char) (l : List Char) : Bool :=
  (match prev with | some c => !isWordChar c | none => true)
  && w.isPrefixOf l
  && (match l.drop w.length with | [] => true | c :: _ => !isWordChar c)

/-- Leftmost match of the regex `\b(w₁|w₂|…)\b`: scanning left to right, at the
first position where some alternative matches, return the first alternative in
list order that matches there (Python alternation order; the alternatives used
in the source are pairwise exclusive at any one position). -/
def findFirstWord (ws : List (List Char)) (prev : Option Char) :
    List Char → Option (List Char)
  | [] => ws.find? (fun w => wordMatchHere w prev [])
  | c :: rest =>
    match ws.find? (fun w => wordMatchHere w prev (c :: rest)) with
    | some w => some w
    | none => findFirstWord ws (some c) rest

/-- Python `re.search(r"\b w \b", s) is not None`. -/
def containsWord (w : String) (s : String) : Bool :=
  (findFirstWord [w.toList] none s.toList).isSome

/-- The part of the text before the leftmost `\b(w₁|…)\b` match
(Python `re.split(pattern, s, 1)[0]`); the whole text when there is no match. -/
def takeBeforeFirstWord (ws : List (List Char)) (prev : Option Char) :
    List Char → List Char
  | [] => []
  | c :: rest =>
    if ws.any (fun w => wordMatchHere w prev (c :: rest)) then []
    else c :: takeBeforeFirstWord ws (some c) rest

/-- Strip characters satisfying `bad` from both ends of a list. -/
def stripEnds (bad : Char → Bool) (l : List Char) : List Char :=
  ((l.dropWhile bad).reverse.dropWhile bad).reverse

/-- Python `str.strip()` (no argument): strip whitespace from both ends. -/
def pyStrip (s : String) : String :=
  String.mk (stripEnds Char.isWhitespace s.toList)

/-- The apostrophe character, written by code point. -/
def squote : Char := Char.ofNat 39

/-- Python `str.strip("\"'")`: strip double and single quotes from both ends. -/
def stripQuotes (s : String) : String :=
  String.mk (stripEnds (fun c => c = '"' || c = squote) s.toList)

/-- Python `str.title()` restricted to the single lowercase words it is applied
to in the source ("add", "remove", "disable", "enable"): capitalize the first
character. -/
def pyTitle (s : String) : String :=
  match s.toList with
  | [] => ""
  | c :: rest => String.mk (c.toUpper :: rest)

/-! ## `tools/blast_radius_engine.py` -/

/-- One element of a context's `projects` list: a dict exposing `id` and/or
`projectId` (`{"projects": [{"id": …}, {"projectId": …}]}`). -/
structure ProjRef where
  id : Option String
  projectId : Option String
deriving DecidableEq, Repr

/-- Python `p.get("id") or p.get("projectId")` followed by the `is not None`
check: an `id` that is `None` or the empty string (falsy) falls through to
`projectId`. -/
def projRefId (p : ProjRef) : Option String :=
  match p.id with
  | some s => if s = "" then p.projectId else some s
  | none => p.projectId

/-- A custom-field configuration context as consumed by `analyze_blast_radius`.
`projectIds = some l` models the key being present with a list value (possibly
empty); `none` models the key absent or not a list; likewise for `projects`.
The two explicit global flags model `isGlobalContext` / `is_global_context`
boolean keys. -/
structure Ctx where
  id : Option String
  contextId : Option String
  projectIds : Option (List String)
  projects : Option (List ProjRef)
  isGlobalContext : Option Bool
  is_global_context : Option Bool
deriving DecidableEq, Repr

/-- The nested `_ctx_project_ids` helper of `analyze_blast_radius`: a
`projectIds` list is used directly; otherwise a `projects` list of dicts is
mined for `id`/`projectId`; otherwise the empty list. -/
def ctxProjectIds (c : Ctx) : List String :=
  match c.projectIds with
  | some l => l
  | none =>
    match c.projects with
    | some ps => ps.filterMap projRefId
    | none => []

/-- The nested `_is_global_ctx` helper: an explicit boolean flag wins;
otherwise an empty extracted project list means global. -/
def isGlobalCtx (c : Ctx) : Bool :=
  match c.isGlobalContext with
  | some b => b
  | none =>
    match c.is_global_context with
    | some b => b
    | none => (ctxProjectIds c).isEmpty

/-- Python `str(selected.get("id") or selected.get("contextId") or "")`. -/
def ctxIdStr (c : Ctx) : String :=
  match c.id with
  | some s => if s = "" then (c.contextId.getD "") else s
  | none => c.contextId.getD ""

/-- Result dict of `analyze_blast_radius`. -/
structure BRResult where
  selected_context_id : Option String
  is_global : Bool
  project_count : Nat
  risk_level : String
  reason : String
  field_name : Option String
deriving DecidableEq, Repr

/-- Sort key used on applicable contexts:
`len(_ctx_project_ids(c)) or 10**9` (a zero length is falsy in Python). -/
def ctxKey (c : Ctx) : Nat :=
  let n := (ctxProjectIds c).length
  if n = 0 then 1000000000 else n

/-- The element Python's stable `sorted(applicable, key=…)[0]` yields: the
first element of the list attaining the minimal key. -/
def minByKey (key : Ctx → Nat) (c : Ctx) (cs : List Ctx) : Ctx :=
  cs.foldl (fun best x => if key x < key best then x else best) c

/-- Reason string of the fail-closed branch (the source file stores the arrow
of "context→project" as the bytes shown here). -/
def failClosedReason : String :=
  "Unable to determine applicable project-scoped context for target project because " ++
  "Jira did not provide contextâ†’project mappings (projectIds/projects are empty/missing). " ++
  "Refusing to proceed (fail-closed)."

/-- Risk classification of the selected context (final part of
`analyze_blast_radius`). -/
def classifyCtx (sel : Ctx) (field_name : Option String) : BRResult :=
  let selId := ctxIdStr sel
  let sid : Option String := if selId = "" then none else some selId
  if isGlobalCtx sel then
    ⟨sid, true, 0, "GLOBAL",
      "Applicable context for target project is GLOBAL; option changes affect all projects in that context.",
      field_name⟩
  else
    let pc := (ctxProjectIds sel).eraseDups.length
    if pc ≤ 1 then
      ⟨sid, false, pc, "LOW", "Applicable context is project-scoped to a single project.", field_name⟩
    else if pc = 2 then
      ⟨sid, false, pc, "MEDIUM", "Applicable context is shared by 2 projects (scheme sharing detected).", field_name⟩
    else
      ⟨sid, false, pc, "HIGH",
        "Applicable context is shared by " ++ toString pc ++ " projects (scheme sharing detected).",
        field_name⟩

/-- Predicate for the applicable-context filter: the context's extracted
project-id list is non-empty and contains the target project id. -/
def applicablePred (tpid : String) (c : Ctx) : Bool :=
  !(ctxProjectIds c).isEmpty && (ctxProjectIds c).contains tpid

/-- Python falsiness of a selected context dict, as tested by the source's
`if not selected:` check: a dict with every key absent — the empty dict — is
falsy and is treated like having no context at all. -/
def ctxFalsy (c : Ctx) : Bool :=
  c.id = none && c.contextId = none && c.projectIds = none && c.projects = none &&
  c.isGlobalContext = none && c.is_global_context = none

/-- The CRITICAL result returned when no (truthy) context was selected. -/
def noContextsBR (field_name : Option String) : BRResult :=
  ⟨none, false, 0, "CRITICAL",
   "No contexts returned for field; cannot determine blast radius.", field_name⟩

/-- `analyze_blast_radius` from `tools/blast_radius_engine.py`.  The Python
argument normalization is modelled by the typed signature (field name kept
separately); `target_project_id=None` raises `TypeError`, modelled as
`Except.error` with the exception text. -/
def analyzeBlastRadius (field_name : Option String) (contexts : List Ctx)
    (target : Option String) : Except String BRResult :=
  match target with
  | none => .error "analyze_blast_radius() missing required argument: \x27target_project_id\x27"
  | some tpid =>
    let applicable := contexts.filter (applicablePred tpid)
    let anyNonempty := contexts.any (fun c => !(ctxProjectIds c).isEmpty)
    match applicable with
    | [] =>
      if !anyNonempty && contexts.length > 1 then
        .ok ⟨none, false, 0, "CRITICAL", failClosedReason, field_name⟩
      else
        let globalCtxs := contexts.filter (fun c => isGlobalCtx c)
        match globalCtxs.head?.orElse (fun _ => contexts.head?) with
        | none => .ok (noContextsBR field_name)
        | some sel =>
          if ctxFalsy sel then .ok (noContextsBR field_name)
          else .ok (classifyCtx sel field_name)
    | a :: rest =>
      let sel := minByKey ctxKey a rest
      if ctxFalsy sel then .ok (noContextsBR field_name)
      else .ok (classifyCtx sel field_name)

example :
    analyzeBlastRadius (some "Color")
      [⟨some "1", none, some [], none, none, none⟩,
       ⟨some "2", none, some ["10001"], none, none, none⟩]
      (some "10001") =
    .ok ⟨some "2", false, 1, "LOW",
      "Applicable context is project-scoped to a single project.", some "Color"⟩ := by
  rfl

example :
    analyzeBlastRadius none
      [⟨some "1", none, none, none, none, none⟩,
       ⟨some "2", none, none, none, none, none⟩]
      (some "10001") =
    .ok ⟨none, false, 0, "CRITICAL", failClosedReason, none⟩ := by
  rfl

example :
    analyzeBlastRadius none
      [⟨some "9", none, some ["10001", "10002", "10003"], none, none, none⟩]
      (some "10001") =
    .ok ⟨some "9", false, 3, "HIGH",
      "Applicable context is shared by 3 projects (scheme sharing detected).", none⟩ := by
  rfl

example :
    analyzeBlastRadius none [⟨some "7", none, none, none, none, none⟩] (some "10001") =
    .ok ⟨some "7", true, 0, "GLOBAL",
      "Applicable context for target project is GLOBAL; option changes affect all projects in that context.",
      none⟩ := by
  rfl

/-- Unfolding step of `minByKey`. -/
theorem minByKey_cons (key : Ctx → Nat) (c x : Ctx) (xs : List Ctx) :
    minByKey key c (x :: xs) = minByKey key (if key x < key c then x else c) xs := rfl

/-- The stable-sort selection is an element of the candidate list. -/
theorem minByKey_mem (key : Ctx → Nat) (c : Ctx) (cs : List Ctx) :
    minByKey key c cs ∈ c :: cs := by
  induction cs generalizing c with
  | nil => simp [minByKey]
  | cons x xs ih =>
    rw [minByKey_cons]
    by_cases h : key x < key c
    · rw [if_pos h]
      rcases List.mem_cons.mp (ih x) with h1 | h1
      · rw [h1]; exact List.mem_cons.mpr (Or.inr (List.mem_cons_self x xs))
      · exact List.mem_cons.mpr (Or.inr (List.mem_cons.mpr (Or.inr h1)))
    · rw [if_neg h]
      rcases List.mem_cons.mp (ih c) with h1 | h1
      · rw [h1]; exact List.mem_cons_self c (x :: xs)
      · exact List.mem_cons.mpr (Or.inr (List.mem_cons.mpr (Or.inr h1)))

/-- The stable-sort selection attains the minimal key over the candidate list. -/
theorem minByKey_le (key : Ctx → Nat) (c : Ctx) (cs : List Ctx) :
    ∀ y ∈ c :: cs, key (minByKey key c cs) ≤ key y := by
  induction cs generalizing c with
  | nil => intro y hy; simp at hy; simp [minByKey, hy]
  | cons x xs ih =>
    intro y hy
    rw [minByKey_cons]
    have step1 : key (if key x < key c then x else c) ≤ key c := by
      by_cases h : key x < key c <;> simp [h] <;> omega
    have step2 : key (if key x < key c then x else c) ≤ key x := by
      by_cases h : key x < key c <;> simp [h] <;> omega
    rcases List.mem_cons.mp hy with h1 | h1
    · subst h1
      exact le_trans (ih _ _ (List.mem_cons_self _ _)) step1
    · rcases List.mem_cons.mp h1 with h2 | h2
      · subst h2
        exact le_trans (ih _ _ (List.mem_cons_self _ _)) step2
      · exact ih _ _ (List.mem_cons.mpr (Or.inr h2))

/-- A context with a non-empty extracted project-id list carries a
`projectIds` or `projects` key, so its dict is not empty (truthy). -/
theorem ctxFalsy_false_of_proj (c : Ctx) (h : ctxProjectIds c ≠ []) :
    ctxFalsy c = false := by
  unfold ctxFalsy
  cases hp : c.projectIds with
  | some l => simp [hp]
  | none =>
    cases hq : c.projects with
    | some ps => simp [hp, hq]
    | none =>
      exact absurd (by simp [ctxProjectIds, hp, hq]) h

/-- Claim C2: with no non-empty project mapping anywhere and more than one
context, `analyze_blast_radius` fails closed with risk `CRITICAL`, no selected
context and the fail-closed reason; and a single context sharing its three
distinct project ids with the target yields risk `HIGH` with project count 3. -/
theorem blast_radius_fail_closed_and_shared_high :
    (∀ (fn : Option String) (contexts : List Ctx) (tpid : String),
        (∀ c ∈ contexts, ctxProjectIds c = []) → 1 < contexts.length →
        analyzeBlastRadius fn contexts (some tpid) =
          .ok ⟨none, false, 0, "CRITICAL", failClosedReason, fn⟩)
    ∧ (∀ (fn : Option String) (c : Ctx) (tpid : String),
        c.isGlobalContext = none → c.is_global_context = none →
        tpid ∈ ctxProjectIds c → (ctxProjectIds c).eraseDups.length = 3 →
        ∃ r, analyzeBlastRadius fn [c] (some tpid) = .ok r ∧
          r.risk_level = "HIGH" ∧ r.project_count = 3) := by
  constructor
  · intro fn contexts tpid hall hlen
    have hfilter : contexts.filter (applicablePred tpid) = [] := by
      rw [List.filter_eq_nil]
      intro c hc
      simp [applicablePred, hall c hc]
    have hany : contexts.any (fun c => !(ctxProjectIds c).isEmpty) = false := by
      rw [List.any_eq_false]
      intro c hc
      simp [hall c hc]
    simp [analyzeBlastRadius, hfilter, hany, hlen]
  · intro fn c tpid hf1 hf2 hmem hcard
    have hne : (ctxProjectIds c).isEmpty = false := by
      cases h : ctxProjectIds c with
      | nil => rw [h] at hmem; simp at hmem
      | cons _ _ => simp
    have happ : applicablePred tpid c = true := by
      simp [applicablePred, hne, hmem]
    have hglob : isGlobalCtx c = false := by
      simp [isGlobalCtx, hf1, hf2, hne]
    have hfalsy : ctxFalsy c = false := by
      refine ctxFalsy_false_of_proj c ?_
      intro h0
      rw [h0] at hne
      simp at hne
    refine ⟨classifyCtx c fn, ?_, ?_, ?_⟩
    · simp [analyzeBlastRadius, happ, minByKey, hfalsy]
    · simp [classifyCtx, hglob, hcard]
    · simp [classifyCtx, hglob, hcard]

/-- Claim C2 witness: both parts of the theorem applied at concrete inputs. -/
theorem blast_radius_fail_closed_and_shared_high_witness :
    analyzeBlastRadius none
      [⟨some "1", none, none, none, none, none⟩, ⟨some "2", none, some [], none, none, none⟩]
      (some "10001") = .ok ⟨none, false, 0, "CRITICAL", failClosedReason, none⟩
    ∧ ∃ r, analyzeBlastRadius none
        [⟨some "9", none, some ["10001", "10002", "10003"], none, none, none⟩]
        (some "10001") = .ok r ∧ r.risk_level = "HIGH" ∧ r.project_count = 3 := by
  constructor
  · exact blast_radius_fail_closed_and_shared_high.1 none _ "10001"
      (by intro c hc; fin_cases hc <;> rfl) (by decide)
  · exact blast_radius_fail_closed_and_shared_high.2 none
      ⟨some "9", none, some ["10001", "10002", "10003"], none, none, none⟩ "10001"
      rfl rfl (by decide) (by decide)

/-- Claim C3: whenever the context list holds a global context (empty project
list) and a context scoped exactly to the target project, and no context
carries an explicit global flag, `analyze_blast_radius` classifies a context
scoped exactly to the target — risk `LOW`, project count 1, not global — never
the global one, whatever the list order. -/
theorem blast_radius_prefers_scoped (fn : Option String) (l : List Ctx) (tpid : String)
    (g s : Ctx) (hg : g ∈ l) (hs : s ∈ l)
    (hgpids : ctxProjectIds g = []) (hspids : ctxProjectIds s = [tpid])
    (hflags : ∀ c ∈ l, c.isGlobalContext = none ∧ c.is_global_context = none) :
    ∃ c, c ∈ l ∧ ctxProjectIds c = [tpid] ∧
      analyzeBlastRadius fn l (some tpid) = .ok (classifyCtx c fn) ∧
      (classifyCtx c fn).risk_level = "LOW" ∧
      (classifyCtx c fn).project_count = 1 ∧
      (classifyCtx c fn).is_global = false := by
  have happs : applicablePred tpid s = true := by
    simp [applicablePred, hspids]
  have hs' : s ∈ l.filter (applicablePred tpid) := List.mem_filter.mpr ⟨hs, happs⟩
  cases hfil : l.filter (applicablePred tpid) with
  | nil => rw [hfil] at hs'; cases hs'
  | cons a rest =>
    set m := minByKey ctxKey a rest with hm
    have hmmem : m ∈ l.filter (applicablePred tpid) := by
      rw [hfil]; exact minByKey_mem ctxKey a rest
    obtain ⟨hml, hpm⟩ := List.mem_filter.mp hmmem
    have hsin : s ∈ a :: rest := by rw [← hfil]; exact hs'
    have hle : ctxKey m ≤ ctxKey s := minByKey_le ctxKey a rest s hsin
    have hks : ctxKey s = 1 := by simp [ctxKey, hspids]
    obtain ⟨hne, htm⟩ : (ctxProjectIds m).isEmpty = false ∧ tpid ∈ ctxProjectIds m := by
      simpa [applicablePred] using hpm
    have hnen : ctxProjectIds m ≠ [] := by
      intro h; rw [h] at hne; simp at hne
    have hkm : ctxKey m = (ctxProjectIds m).length := by
      have : (ctxProjectIds m).length ≠ 0 := by
        simpa [List.length_eq_zero] using hnen
      simp [ctxKey, this]
    have hlen1 : (ctxProjectIds m).length = 1 := by
      have h1 : 1 ≤ (ctxProjectIds m).length := by
        cases h : ctxProjectIds m with
        | nil => exact absurd h hnen
        | cons _ _ => simp
      omega
    obtain ⟨x, hx⟩ := List.length_eq_one.mp hlen1
    have hxe : x = tpid := by
      rw [hx] at htm
      exact (List.mem_singleton.mp htm).symm
    have hmp : ctxProjectIds m = [tpid] := by rw [hx, hxe]
    obtain ⟨hmf1, hmf2⟩ := hflags m hml
    have hglob : isGlobalCtx m = false := by
      simp [isGlobalCtx, hmf1, hmf2, hmp]
    have hdedup : (ctxProjectIds m).eraseDups = [tpid] := by rw [hmp]; rfl
    have hmfalsy : ctxFalsy (minByKey ctxKey a rest) = false := by
      rw [← hm]
      exact ctxFalsy_false_of_proj m (by rw [hmp]; simp)
    refine ⟨m, hml, hmp, ?_, ?_, ?_, ?_⟩
    · simp [analyzeBlastRadius, hfil, hmfalsy]
    · simp [classifyCtx, hglob, hdedup]
    · simp [classifyCtx, hglob, hdedup]
    · simp [classifyCtx, hglob, hdedup]

/-- Claim C3 witness: the global context listed first, the scoped context
second; the scoped one is selected. -/
theorem blast_radius_prefers_scoped_witness :
    ∃ c, c ∈ [(⟨some "1", none, some [], none, none, none⟩ : Ctx),
              ⟨some "2", none, some ["10001"], none, none, none⟩] ∧
      ctxProjectIds c = ["10001"] ∧
      analyzeBlastRadius (some "Color")
        [⟨some "1", none, some [], none, none, none⟩,
         ⟨some "2", none, some ["10001"], none, none, none⟩] (some "10001") =
        .ok (classifyCtx c (some "Color")) ∧
      (classifyCtx c (some "Color")).risk_level = "LOW" ∧
      (classifyCtx c (some "Color")).project_count = 1 ∧
      (classifyCtx c (some "Color")).is_global = false :=
  blast_radius_prefers_scoped (some "Color") _ "10001"
    ⟨some "1", none, some [], none, none, none⟩
    ⟨some "2", none, some ["10001"], none, none, none⟩
    (by decide) (by decide) rfl rfl
    (by intro c hc; fin_cases hc <;> exact ⟨rfl, rfl⟩)

/-- Claim C10 counterexample: a single context whose dict is empty — every
key absent — is falsy in Python, so the source's `if not selected:` check
fires and the result is the CRITICAL no-contexts dict, not `GLOBAL`. -/
theorem blast_radius_single_unknown_counterexample :
    analyzeBlastRadius none [⟨none, none, none, none, none, none⟩] (some "10001") =
      .ok ⟨none, false, 0, "CRITICAL",
        "No contexts returned for field; cannot determine blast radius.", none⟩
    ∧ ("CRITICAL" : String) ≠ "GLOBAL" := by
  exact ⟨rfl, by decide⟩

/-- Claim C10 (amended: the single context must also be a non-empty dict,
e.g. carry its id — the completely empty context dict is falsy and yields the
CRITICAL no-contexts result instead): a single non-empty context with no
project-mapping keys and no explicit global flag is selected (the fail-closed
branch needs more than one context); its empty extracted project list makes
it global, so the result is risk `GLOBAL` with project count 0. -/
theorem blast_radius_single_unknown_is_global (fn : Option String) (c : Ctx) (tpid : String)
    (h1 : c.projectIds = none) (h2 : c.projects = none)
    (hf1 : c.isGlobalContext = none) (hf2 : c.is_global_context = none)
    (hne : ctxFalsy c = false) :
    analyzeBlastRadius fn [c] (some tpid) = .ok (classifyCtx c fn) ∧
    (classifyCtx c fn).risk_level = "GLOBAL" ∧
    (classifyCtx c fn).project_count = 0 ∧
    (classifyCtx c fn).is_global = true := by
  have hpids : ctxProjectIds c = [] := by simp [ctxProjectIds, h1, h2]
  have happ : applicablePred tpid c = false := by simp [applicablePred, hpids]
  have hglob : isGlobalCtx c = true := by simp [isGlobalCtx, hf1, hf2, hpids]
  refine ⟨?_, ?_, ?_, ?_⟩
  · simp [analyzeBlastRadius, happ, hpids, hglob, hne]
  · simp [classifyCtx, hglob]
  · simp [classifyCtx, hglob]
  · simp [classifyCtx, hglob]

/-- Claim C10 witness: the amended theorem applied to a concrete unmapped
context that carries its id. -/
theorem blast_radius_single_unknown_is_global_witness :
    analyzeBlastRadius none [⟨some "7", none, none, none, none, none⟩] (some "10001") =
      .ok (classifyCtx ⟨some "7", none, none, none, none, none⟩ none) ∧
    (classifyCtx (⟨some "7", none, none, none, none, none⟩ : Ctx) none).risk_level = "GLOBAL" ∧
    (classifyCtx (⟨some "7", none, none, none, none, none⟩ : Ctx) none).project_count = 0 ∧
    (classifyCtx (⟨some "7", none, none, none, none, none⟩ : Ctx) none).is_global = true :=
  blast_radius_single_unknown_is_global none _ "10001" rfl rfl rfl rfl rfl

/-! ## `rules/stale_tickets.py` -/

/-- Insert a string into a sorted list (ordering by code points, as Python
`sorted` on `str`). -/
def insertSorted (s : String) : List String → List String
  | [] => [s]
  | t :: rest => if s < t then s :: t :: rest else t :: insertSorted s rest

/-- Sort a list of strings (insertion sort). -/
def sortStrings (l : List String) : List String := l.foldr insertSorted []

/-- Python `sorted(set(l))`: the distinct elements in ascending order. -/
def sortedSet (l : List String) : List String := sortStrings l.eraseDups

/-- Configuration state of `StaleTicketRule` relevant to `_build_jql`.
`exclude_statuses` / `exclude_labels` hold the constructor arguments; the
stored Python sets are reflected by `sortedSet` at clause-building time. -/
structure StaleCfg where
  days : Int
  projects : List String
  exclude_statuses : List String
  exclude_labels : List String
  max_days : Int
deriving Repr

/-- `StaleTicketRule._project_clause`. -/
def projectClause (cfg : StaleCfg) : String :=
  if cfg.projects = [] then ""
  else
    "project in (" ++
      String.intercalate ","
        ((cfg.projects.filter (fun p => p ≠ "" && pyStrip p ≠ "")).map pyStrip) ++
      ") AND "

/-- `StaleTicketRule._exclude_status_clause`. -/
def excludeStatusClause (cfg : StaleCfg) : String :=
  if cfg.exclude_statuses = [] then ""
  else
    " AND status not in (" ++
      String.intercalate "," ((sortedSet cfg.exclude_statuses).map (fun s => "\"" ++ s ++ "\"")) ++
      ")"

/-- `StaleTicketRule._exclude_labels_clause`. -/
def excludeLabelsClause (cfg : StaleCfg) : String :=
  if cfg.exclude_labels = [] then ""
  else
    " AND labels not in (" ++
      String.intercalate "," ((sortedSet cfg.exclude_labels).map (fun s => "\"" ++ s ++ "\"")) ++
      ")"

/-- `StaleTicketRule._build_jql`: a non-positive day threshold drops the
updated-threshold clause; otherwise the threshold is capped at `max_days`. -/
def buildJql (cfg : StaleCfg) : String :=
  let base :=
    if cfg.days ≤ 0 then
      projectClause cfg ++ "statusCategory != Done"
    else
      projectClause cfg ++ "updated < -" ++ toString (min cfg.days cfg.max_days) ++
        "d AND statusCategory != Done"
  base ++ excludeStatusClause cfg ++ excludeLabelsClause cfg

example :
    buildJql ⟨7, ["ABC"], ["Blocked"], ["stale"], 365⟩ =
      "project in (ABC) AND updated < -7d AND statusCategory != Done" ++
      " AND status not in (\"Blocked\") AND labels not in (\"stale\")" := by
  rfl

/-- Claim C8: the concrete configuration produces a JQL containing the four
expected clauses, and any configuration with a non-positive day threshold
yields exactly the project clause, `statusCategory != Done` and the two
exclusion clauses — no updated-threshold clause. -/
theorem stale_jql_clauses :
    (containsSub "project in (ABC)" (buildJql ⟨7, ["ABC"], ["Blocked"], ["stale"], 365⟩) = true
     ∧ containsSub "updated < -7d AND statusCategory != Done"
         (buildJql ⟨7, ["ABC"], ["Blocked"], ["stale"], 365⟩) = true
     ∧ containsSub "status not in (\"Blocked\")"
         (buildJql ⟨7, ["ABC"], ["Blocked"], ["stale"], 365⟩) = true
     ∧ containsSub "labels not in (\"stale\")"
         (buildJql ⟨7, ["ABC"], ["Blocked"], ["stale"], 365⟩) = true)
    ∧ ∀ cfg : StaleCfg, cfg.days ≤ 0 →
        buildJql cfg =
          projectClause cfg ++ "statusCategory != Done" ++
          excludeStatusClause cfg ++ excludeLabelsClause cfg := by
  refine ⟨⟨by decide, by decide, by decide, by decide⟩, ?_⟩
  intro cfg hd
  simp [buildJql, hd]

/-- Claim C8 witness: the non-positive branch applied at a concrete
configuration. -/
theorem stale_jql_clauses_witness :
    buildJql ⟨0, ["ABC"], ["Blocked"], ["stale"], 365⟩ =
      projectClause ⟨0, ["ABC"], ["Blocked"], ["stale"], 365⟩ ++ "statusCategory != Done" ++
      excludeStatusClause ⟨0, ["ABC"], ["Blocked"], ["stale"], 365⟩ ++
      excludeLabelsClause ⟨0, ["ABC"], ["Blocked"], ["stale"], 365⟩ :=
  stale_jql_clauses.2 ⟨0, ["ABC"], ["Blocked"], ["stale"], 365⟩ (by decide)

/-! ## Description extraction (`_extract_description` in both agents) -/

/-- An inline node of an ADF-like document: a `type` tag and the value of its
`text` key (`""` when absent, matching `inline.get("text", "")`). -/
structure ADFInline where
  type : String
  text : String
deriving DecidableEq, Repr

/-- A block node: a `type` tag and its `content` list. -/
structure ADFBlock where
  type : String
  content : List ADFInline
deriving DecidableEq, Repr

/-- The description value: a plain string or a structured document
(`{"content": [...]}`). -/
inductive DescValue
  | str (s : String)
  | doc (content : List ADFBlock)
deriving DecidableEq, Repr

/-- `_extract_description` from `llm/agents/l1_triage_bot.py`: concatenate the
text runs inside paragraph blocks; no separator, no final strip. -/
def l1ExtractDescription : DescValue → String
  | .str s => s
  | .doc blocks =>
    blocks.foldl
      (fun acc b =>
        if b.type = "paragraph" then
          b.content.foldl (fun a i => if i.type = "text" then a ++ i.text else a) acc
        else acc)
      ""

/-- `_extract_description` from `llm/agents/admin_validator.py`: same
concatenation but a `"\n"` is appended after each paragraph block and the
final text is stripped. -/
def adminExtractDescription : DescValue → String
  | .str s => s
  | .doc blocks =>
    pyStrip
      (blocks.foldl
        (fun acc b =>
          if b.type = "paragraph" then
            (b.content.foldl (fun a i => if i.type = "text" then a ++ i.text else a) acc) ++ "\n"
          else acc)
        "")

/-- Concatenation of a list of strings. -/
def concatStrings : List String → String
  | [] => ""
  | s :: rest => s ++ concatStrings rest

/-- Specification-side definition, following the spec's words: the text of one
paragraph block is the concatenation of its `text`-typed runs, and a document
contributes exactly its paragraph blocks, all other block types ignored. -/
def paragraphTexts (blocks : List ADFBlock) : List String :=
  blocks.filterMap
    (fun b =>
      if b.type = "paragraph" then
        some (concatStrings (b.content.filterMap
          (fun i => if i.type = "text" then some i.text else none)))
      else none)

theorem inlineFold_eq (inlines : List ADFInline) (acc : String) :
    inlines.foldl (fun a i => if i.type = "text" then a ++ i.text else a) acc =
      acc ++ concatStrings (inlines.filterMap
        (fun i => if i.type = "text" then some i.text else none)) := by
  induction inlines generalizing acc with
  | nil => simp [concatStrings]
  | cons i rest ih =>
    by_cases h : i.type = "text"
    · simp [h, ih, concatStrings, String.append_assoc]
    · simp [h, ih, concatStrings]

theorem l1BlockFold_eq (blocks : List ADFBlock) (acc : String) :
    blocks.foldl
      (fun acc b =>
        if b.type = "paragraph" then
          b.content.foldl (fun a i => if i.type = "text" then a ++ i.text else a) acc
        else acc)
      acc = acc ++ concatStrings (paragraphTexts blocks) := by
  induction blocks generalizing acc with
  | nil => simp [paragraphTexts, concatStrings]
  | cons b rest ih =>
    simp only [List.foldl_cons]
    rw [ih]
    by_cases h : b.type = "paragraph"
    · rw [if_pos h, inlineFold_eq]
      simp [paragraphTexts, h, concatStrings, String.append_assoc]
    · rw [if_neg h]
      simp [paragraphTexts, h]

theorem adminBlockFold_eq (blocks : List ADFBlock) (acc : String) :
    blocks.foldl
      (fun acc b =>
        if b.type = "paragraph" then
          (b.content.foldl (fun a i => if i.type = "text" then a ++ i.text else a) acc) ++ "\n"
        else acc)
      acc = acc ++ concatStrings ((paragraphTexts blocks).map (fun t => t ++ "\n")) := by
  induction blocks generalizing acc with
  | nil => simp [paragraphTexts, concatStrings]
  | cons b rest ih =>
    simp only [List.foldl_cons]
    rw [ih]
    by_cases h : b.type = "paragraph"
    · rw [if_pos h, inlineFold_eq]
      simp [paragraphTexts, h, concatStrings, String.append_assoc]
    · rw [if_neg h]
      simp [paragraphTexts, h]

/-- Claim C9: both extraction functions return a plain string unchanged; on a
structured document both return the concatenation of the text runs inside
paragraph blocks, ignoring all other block and inline types — the L1 bot with
no paragraph separator, the admin validator joining each paragraph with a
newline and stripping the result. -/
theorem extract_description_spec :
    (∀ s, l1ExtractDescription (.str s) = s ∧ adminExtractDescription (.str s) = s)
    ∧ (∀ blocks, l1ExtractDescription (.doc blocks) = concatStrings (paragraphTexts blocks))
    ∧ (∀ blocks, adminExtractDescription (.doc blocks) =
        pyStrip (concatStrings ((paragraphTexts blocks).map (fun t => t ++ "\n")))) := by
  refine ⟨fun s => ⟨rfl, rfl⟩, ?_, ?_⟩
  · intro blocks
    show blocks.foldl _ "" = _
    rw [l1BlockFold_eq]
    simp
  · intro blocks
    show pyStrip (blocks.foldl _ "") = _
    rw [adminBlockFold_eq]
    simp

example :
    l1ExtractDescription
      (.doc [⟨"paragraph", [⟨"text", "Hello "⟩]⟩, ⟨"paragraph", [⟨"text", "world"⟩]⟩]) =
      "Hello world" := by rfl

example :
    adminExtractDescription
      (.doc [⟨"paragraph", [⟨"text", "Hello "⟩]⟩, ⟨"paragraph", [⟨"text", "world"⟩]⟩]) =
      "Hello \nworld" := by rfl

/-! ## `workflows/hygiene_engine.py` — `HygieneEngine.process` -/

/-- An event payload: the value of its `eventType` key (when present and a
string) and arbitrary further data consumed by the rules. -/
structure HPayload (σ : Type) where
  eventType : Option String
  data : σ

/-- A registered hygiene rule: a name, the `should_run` predicate and the
`execute` operation.  Both Python methods may raise; an exception is modelled
as `Except.error` carrying `str(e)`. -/
structure HRule (σ α : Type) where
  name : String
  should_run : HPayload σ → Except String Bool
  execute : HPayload σ → Except String α

/-- One entry of the per-rule result map: the rule's own `execute` result, the
literal skipped dict `{"rule": …, "status": "skipped", "reason":
"should_run=false"}`, or the error dict `{"rule": …, "status": "error",
"error": str(e)}`. -/
inductive RuleOutcome (α : Type)
  | res (a : α)
  | skipped (ruleName : String) (reason : String)
  | error (ruleName : String) (msg : String)
deriving DecidableEq, Repr

/-- The body of the engine's try/except for one rule. -/
def runRule {σ α : Type} (rule : HRule σ α) (p : HPayload σ) : RuleOutcome α :=
  match rule.should_run p with
  | .error e => .error rule.name e
  | .ok true =>
    match rule.execute p with
    | .ok a => .res a
    | .error e => .error rule.name e
  | .ok false => .skipped rule.name "should_run=false"

/-- Assignment `out["rules"][name] = result` into a Python dict: replace an
existing key in place, else append. -/
def dictInsert {α : Type} (k : String) (v : RuleOutcome α) :
    List (String × RuleOutcome α) → List (String × RuleOutcome α)
  | [] => [(k, v)]
  | (k2, v2) :: rest => if k2 = k then (k, v) :: rest else (k2, v2) :: dictInsert k v rest

/-- The structured report of `HygieneEngine.process`. -/
structure EngineReport (α : Type) where
  rules : List (String × RuleOutcome α)
  meta_projects : List String
  meta_projects_csv : String
  meta_event_type : String

/-- `HygieneEngine.process`: run every registered rule inside a per-rule
try/except and key each outcome by the rule's name; the engine itself is a
total function of its inputs (it never raises). -/
def engineProcess {σ α : Type} (projects : List String) (rules : List (HRule σ α))
    (payload : HPayload σ) : EngineReport α :=
  let event :=
    match payload.eventType with
    | some e => if e = "" then "unknown" else e
    | none => "unknown"
  { rules := rules.foldl (fun acc rule => dictInsert rule.name (runRule rule payload) acc) []
    meta_projects := projects
    meta_projects_csv := if projects = [] then "" else String.intercalate ", " projects
    meta_event_type := event }

theorem dictInsert_keys_not_mem {α : Type} (k : String) (v : RuleOutcome α)
    (l : List (String × RuleOutcome α)) (h : k ∉ l.map Prod.fst) :
    dictInsert k v l = l ++ [(k, v)] := by
  induction l with
  | nil => simp [dictInsert]
  | cons kv rest ih =>
    simp only [List.map_cons, List.mem_cons] at h
    push_neg at h
    simp [dictInsert, Ne.symm h.1, ih h.2]

theorem engineFold_spec {σ α : Type} (payload : HPayload σ) :
    ∀ (rules : List (HRule σ α)) (acc : List (String × RuleOutcome α)),
      (rules.map (fun r => r.name)).Nodup →
      (∀ r ∈ rules, r.name ∉ acc.map Prod.fst) →
      rules.foldl (fun acc rule => dictInsert rule.name (runRule rule payload) acc) acc =
        acc ++ rules.map (fun r => (r.name, runRule r payload)) := by
  intro rules
  induction rules with
  | nil => intro acc _ _; simp
  | cons r rest ih =>
    intro acc hnd hdisj
    simp only [List.foldl_cons, List.map_cons]
    rw [dictInsert_keys_not_mem r.name _ acc (hdisj r (List.mem_cons_self r rest))]
    have hrec := ih (acc ++ [(r.name, runRule r payload)]) (List.Nodup.of_cons hnd) ?_
    · rw [hrec]
      simp
    · intro r2 hr2
      simp only [List.map_append, List.mem_append]
      push_neg
      refine ⟨hdisj r2 (List.mem_cons.mpr (Or.inr hr2)), ?_⟩
      simp only [List.map_cons, List.map_nil, List.mem_singleton]
      intro he
      have hlem := List.nodup_cons.mp hnd
      exact hlem.1 (by simpa [he] using List.mem_map_of_mem (fun r => r.name) hr2)

theorem lookup_map_rules {σ α : Type} (payload : HPayload σ) :
    ∀ rules : List (HRule σ α), (rules.map (fun r => r.name)).Nodup →
      ∀ rule ∈ rules,
        (rules.map (fun r => (r.name, runRule r payload))).lookup rule.name =
          some (runRule rule payload) := by
  intro rules
  induction rules with
  | nil => intro _ rule h; cases h
  | cons r rest ih =>
    intro hnd rule hrule
    rcases List.mem_cons.mp hrule with h | h
    · subst h
      simp [List.lookup]
    · have hne : (rule.name == r.name) = false := by
        refine beq_eq_false_iff_ne.mpr ?_
        intro he
        have hlem := List.nodup_cons.mp hnd
        exact hlem.1 (by simpa [he] using List.mem_map_of_mem (fun r => r.name) h)
      simp only [List.map_cons, List.lookup, hne]
      exact ih (List.Nodup.of_cons hnd) rule h

/-- Claim C7 counterexample: a rule whose predicate is false is recorded with
reason `"should_run=false"`, not `"predicate false"` as the claim states. -/
theorem engine_skipped_reason_counterexample :
    (engineProcess [] [⟨"StaleTicketRule", fun _ => .ok false, fun _ => .ok 0⟩]
        (⟨some "scheduled_sweep", ()⟩ : HPayload Unit)).rules =
      [("StaleTicketRule", RuleOutcome.skipped "StaleTicketRule" "should_run=false")]
    ∧ "should_run=false" ≠ "predicate false" := by
  exact ⟨rfl, by decide⟩

/-- Claim C7 (amended: the skipped reason is the literal `"should_run=false"`):
for any payload and any rule list with distinct names, the engine returns a
total result mapping every registered rule's name to exactly one outcome — the
rule's `execute` result when its predicate holds, a skipped entry with reason
`"should_run=false"` when it does not, and an error entry carrying the
exception message when either call raises; the result map lists exactly the
registered rule names, in order. -/
theorem engine_maps_each_rule {σ α : Type} (projects : List String)
    (rules : List (HRule σ α)) (payload : HPayload σ)
    (hnd : (rules.map (fun r => r.name)).Nodup) :
    ((engineProcess projects rules payload).rules.map Prod.fst = rules.map (fun r => r.name))
    ∧ ∀ rule ∈ rules,
        (engineProcess projects rules payload).rules.lookup rule.name =
          some (match rule.should_run payload with
                | .ok true =>
                  match rule.execute payload with
                  | .ok a => .res a
                  | .error e => .error rule.name e
                | .ok false => .skipped rule.name "should_run=false"
                | .error e => .error rule.name e) := by
  have hfold : (engineProcess projects rules payload).rules =
      rules.map (fun r => (r.name, runRule r payload)) := by
    show rules.foldl _ [] = _
    rw [engineFold_spec payload rules [] hnd (by simp)]
    simp
  constructor
  · rw [hfold]
    simp
  · intro rule hrule
    rw [hfold, lookup_map_rules payload rules hnd rule hrule]
    cases hsr : rule.should_run payload with
    | error e => simp [runRule, hsr]
    | ok b =>
      cases b with
      | true =>
        cases hex : rule.execute payload with
        | ok a => simp [runRule, hsr, hex]
        | error e => simp [runRule, hsr, hex]
      | false => simp [runRule, hsr]

/-- Rules used by the claim C7 witness. -/
def c7Rules : List (HRule Unit Nat) :=
  [⟨"StaleTicketRule", fun _ => .ok true, fun _ => .ok 3⟩,
   ⟨"MissingFieldsRule", fun _ => .ok false, fun _ => .ok 0⟩]

/-- Payload used by the claim C7 witness. -/
def c7Payload : HPayload Unit := ⟨some "scheduled_sweep", ()⟩

/-- Claim C7 witness: the amended theorem applied to a concrete two-rule
engine — one rule executes, one is skipped. -/
theorem engine_maps_each_rule_witness :
    ((engineProcess ["SBX"] c7Rules c7Payload).rules.map Prod.fst =
      ["StaleTicketRule", "MissingFieldsRule"])
    ∧ (engineProcess ["SBX"] c7Rules c7Payload).rules.lookup "StaleTicketRule" =
        some (RuleOutcome.res 3)
    ∧ (engineProcess ["SBX"] c7Rules c7Payload).rules.lookup "MissingFieldsRule" =
        some (RuleOutcome.skipped "MissingFieldsRule" "should_run=false") := by
  have h := engine_maps_each_rule ["SBX"] c7Rules c7Payload (by simp [c7Rules])
  refine ⟨by simpa [c7Rules] using h.1, ?_, ?_⟩
  · have h1 := h.2 ⟨"StaleTicketRule", fun _ => .ok true, fun _ => .ok 3⟩
      (by simp [c7Rules])
    simpa [c7Payload] using h1
  · have h2 := h.2 ⟨"MissingFieldsRule", fun _ => .ok false, fun _ => .ok 0⟩
      (by simp [c7Rules])
    simpa [c7Payload] using h2

/-! ## `llm/ollama_client.py` -/

/-- What `json.loads` produced, as far as `call_ollama` inspects it: a
non-dict value, or a dict with the given key set. -/
inductive JsonShape
  | notDict
  | dict (keys : List String)
deriving DecidableEq, Repr

/-- Outcome of the HTTP round trip to the generation endpoint: the three
exception classes caught by `call_ollama`, or a 200 response whose `response`
field holds the given text. -/
inductive OllamaOutcome
  | timeout
  | connectionError
  | exception (msg : String)
  | ok (responseText : String)
deriving DecidableEq, Repr

/-- Environment for one `call_ollama` invocation: the transport outcome and
the behaviour of `json.loads` on the cleaned text (`none` models
`JSONDecodeError`).  Both model external libraries, not repository code. -/
structure OllamaEnv where
  outcome : OllamaOutcome
  jsonLoads : String → Option JsonShape

/-- The four fallback dict shapes built by `_get_structured_fallback`.  The
admin shape has no `marker` key; the other three carry one. -/
inductive Fallback
  | admin (understanding : String) (fallback_reason : String)
  | pm (new_summary new_description comment marker : String) (fallback_reason : String)
  | governance (summary marker : String) (fallback_reason : String)
  | generic (errorMsg details suggestion marker : String) (fallback_reason : String)
deriving DecidableEq, Repr

/-- The value of the `marker` key, when the fallback dict has one. -/
def Fallback.markerOf : Fallback → Option String
  | .admin _ _ => none
  | .pm _ _ _ m _ => some m
  | .governance _ m _ => some m
  | .generic _ _ _ m _ => some m

/-- The value of the `fallback_reason` key (present in every shape). -/
def Fallback.reasonOf : Fallback → String
  | .admin _ r => r
  | .pm _ _ _ _ r => r
  | .governance _ _ r => r
  | .generic _ _ _ _ r => r

/-- Python `any(word in prompt_lower for word in [...])` for the admin-flow
keyword list. -/
def admKw (pl : String) : Bool :=
  containsSub "field" pl || containsSub "custom" pl || containsSub "admin" pl ||
  containsSub "create" pl || containsSub "configuration" pl

/-- Keyword scan for the PM-enhancement fallback shape. -/
def pmKw (pl : String) : Bool :=
  containsSub "enhance" pl || containsSub "improve" pl || containsSub "meeting" pl ||
  containsSub "notes" pl || containsSub "story" pl

/-- Keyword scan for the governance fallback shape. -/
def govKw (pl : String) : Bool :=
  containsSub "governance" pl || containsSub "violation" pl || containsSub "cleanup" pl ||
  containsSub "standard" pl

/-- `_get_structured_fallback`: the fallback shape is selected by scanning the
lower-cased prompt, admin keywords first, then PM keywords, then governance
keywords, else the generic shape. -/
def getStructuredFallback (prompt error_type details : String) : Fallback :=
  let pl := lowerStr prompt
  if admKw pl then
    .admin ("AI service temporarily unavailable (" ++ error_type ++
            "). Admin request detected for manual review.") error_type
  else if pmKw pl then
    .pm "AI Enhancement Pending"
      ("This ticket is queued for AI enhancement but the service is temporarily unavailable (" ++
        error_type ++ "). Manual review recommended.")
      ("AI enhancement temporarily unavailable (" ++ error_type ++
        "). Ticket marked for manual review.")
      ("<!--pm-ai-fallback-" ++ error_type ++ "-->") error_type
  else if govKw pl then
    .governance ("Governance analysis temporarily unavailable (" ++ error_type ++
        "). Manual review recommended.")
      ("<!--governance-bot-fallback-" ++ error_type ++ "-->") error_type
  else
    .generic ("AI service temporarily unavailable (" ++ error_type ++ ")") details
      "Please try again later or contact support if the issue persists"
      ("<!--ai-fallback-" ++ error_type ++ "-->") error_type

/-- The opening-brace character, written by code point. -/
def obrace : Char := Char.ofNat 123

/-- The closing-brace character, written by code point. -/
def cbrace : Char := Char.ofNat 125

/-- Python `text.split("\n")` on character lists. -/
def splitLines : List Char → List (List Char)
  | [] => [[]]
  | c :: rest =>
    if c = '\n' then [] :: splitLines rest
    else
      match splitLines rest with
      | [] => [[c]]
      | l :: ls => (c :: l) :: ls

/-- Python `"\n".join(lines)` on character lists. -/
def joinLines : List (List Char) → List Char
  | [] => []
  | [l] => l
  | l :: ls => l ++ '\n' :: joinLines ls

/-- The filler prefixes `_clean_response_text` strips. -/
def fillerPrefixes : List String :=
  ["Here\x27s the JSON response:", "Here is the JSON:", "JSON response:",
   "Response:", "Here\x27s what I found:", "Based on the request:"]

/-- The prefix-stripping loop of `_clean_response_text`: each filler prefix in
turn, compared case-insensitively, removed (with a strip) when it matches. -/
def stripFillerPrefixes (text : String) : String :=
  fillerPrefixes.foldl
    (fun t p =>
      if (lowerStr p).toList.isPrefixOf (lowerStr t).toList then
        pyStrip (String.mk (t.toList.drop p.length))
      else t)
    text

/-- Brace-balancing truncation: scan counting brace depth and cut just after
the position where the depth returns to zero; if it never does, the text is
unchanged. -/
def truncBalancedAux (depth : Int) (acc : List Char) : List Char → List Char
  | [] => acc.reverse
  | c :: rest =>
    let depth2 := if c = obrace then depth + 1 else if c = cbrace then depth - 1 else depth
    if c = cbrace && depth2 = 0 then (c :: acc).reverse
    else truncBalancedAux depth2 (c :: acc) rest

/-- `_clean_response_text`: strip code fences, filler prefixes, leading prose
before the first `\x7b`, and trailing text after the balanced JSON object. -/
def cleanResponseText (text : String) : String :=
  let text := if "```".toList.isPrefixOf text.toList then
      let lines := splitLines text.toList
      if lines.length > 1 then String.mk (joinLines (lines.drop 1)) else text
    else text
  let text := if "```".toList.isSuffixOf text.toList then
      let lines := splitLines text.toList
      if lines.length > 1 then String.mk (joinLines lines.dropLast) else text
    else text
  let text := stripFillerPrefixes text
  let text := pyStrip text
  let text := if !(text.toList.take 1 = [obrace]) then
      if text.toList.contains obrace then
        String.mk (text.toList.dropWhile (fun c => c ≠ obrace))
      else text
    else text
  let text := if text.toList.take 1 = [obrace] then
      String.mk (truncBalancedAux 0 [] text.toList)
    else text
  pyStrip text

example : cleanResponseText "```json\n\x7b\"a\":1,\"b\":2\x7d\n```" =
    "\x7b\"a\":1,\"b\":2\x7d" := by rfl

example :
    cleanResponseText "Sure! \x7b\"a\": 1\x7d hope that helps" = "\x7b\"a\": 1\x7d" := by rfl

/-- Result of `call_ollama`: the parsed JSON value, or a structured fallback. -/
inductive CallResult
  | parsed (j : JsonShape)
  | fallback (f : Fallback)
deriving DecidableEq, Repr

/-- `call_ollama`: every failure mode — timeout, connection error, any other
exception, an empty/short response, invalid JSON, or failed structural
validation for admin-flavoured prompts — yields a structured fallback instead
of raising. -/
def callOllama (prompt system_prompt : String) (env : OllamaEnv) : CallResult :=
  let _full_prompt :=
    system_prompt ++ "\n\nAnalyze this request and return ONLY valid JSON:\n" ++ prompt
  match env.outcome with
  | .timeout => .fallback (getStructuredFallback prompt "timeout" "")
  | .connectionError => .fallback (getStructuredFallback prompt "connection_error" "")
  | .exception msg => .fallback (getStructuredFallback prompt "error" msg)
  | .ok raw =>
    let text := pyStrip raw
    if text = "" || (pyStrip text).length < 10 then
      .fallback (getStructuredFallback prompt "empty_response" "")
    else
      let cleaned := cleanResponseText text
      match env.jsonLoads cleaned with
      | none => .fallback (getStructuredFallback prompt "invalid_json" cleaned)
      | some parsed =>
        if containsSub "field" (lowerStr prompt) || containsSub "admin" (lowerStr prompt) then
          match parsed with
          | .notDict => .fallback (getStructuredFallback prompt "invalid_structure" "")
          | .dict keys =>
            if !(keys.contains "approved" || keys.contains "status" || keys.contains "decision") then
              .fallback (getStructuredFallback prompt "missing_fields" "")
            else .parsed parsed
        else .parsed parsed

/-- Claim C6 counterexample: the prompt "governance field check" contains
"governance" and the transport times out, yet the returned fallback is the
admin shape, which has no `marker` key at all — the admin keyword scan runs
first and "field" matches. -/
theorem ollama_fallback_routing_counterexample :
    callOllama "governance field check" "sys" ⟨.timeout, fun _ => none⟩ =
      .fallback (.admin
        "AI service temporarily unavailable (timeout). Admin request detected for manual review."
        "timeout")
    ∧ containsSub "governance" (lowerStr "governance field check") = true
    ∧ Fallback.markerOf (.admin
        "AI service temporarily unavailable (timeout). Admin request detected for manual review."
        "timeout") = none := by
  exact ⟨rfl, rfl, rfl⟩

/-- Claim C6 (amended: the keyword scan checks the admin keywords
field/custom/admin/create/configuration first and that shape carries no
marker; "improve" also routes to the PM shape): every failure mode returns the
structured fallback for its failure kind instead of raising, the fallback
always carries `fallback_reason` equal to the failure kind, and the marker
follows the corrected routing — admin keywords give no marker, otherwise
enhance/improve/meeting/notes/story give the `pm-ai-fallback` marker,
otherwise governance/violation/cleanup/standard give the
`governance-bot-fallback` marker, and all other prompts the generic
`ai-fallback` marker. -/
theorem ollama_fallback_routing :
    (∀ (p s : String) (env : OllamaEnv),
        env.outcome = .timeout →
        callOllama p s env = .fallback (getStructuredFallback p "timeout" ""))
    ∧ (∀ (p s : String) (env : OllamaEnv),
        env.outcome = .connectionError →
        callOllama p s env = .fallback (getStructuredFallback p "connection_error" ""))
    ∧ (∀ (p s msg : String) (env : OllamaEnv),
        env.outcome = .exception msg →
        callOllama p s env = .fallback (getStructuredFallback p "error" msg))
    ∧ (∀ (p s raw : String) (env : OllamaEnv),
        env.outcome = .ok raw →
        (pyStrip raw = "" ∨ (pyStrip (pyStrip raw)).length < 10) →
        callOllama p s env = .fallback (getStructuredFallback p "empty_response" ""))
    ∧ (∀ (p s raw : String) (env : OllamaEnv),
        env.outcome = .ok raw →
        ¬(pyStrip raw = "" ∨ (pyStrip (pyStrip raw)).length < 10) →
        env.jsonLoads (cleanResponseText (pyStrip raw)) = none →
        callOllama p s env =
          .fallback (getStructuredFallback p "invalid_json" (cleanResponseText (pyStrip raw))))
    ∧ (∀ (p s raw : String) (env : OllamaEnv),
        env.outcome = .ok raw →
        ¬(pyStrip raw = "" ∨ (pyStrip (pyStrip raw)).length < 10) →
        env.jsonLoads (cleanResponseText (pyStrip raw)) = some .notDict →
        (containsSub "field" (lowerStr p) || containsSub "admin" (lowerStr p)) = true →
        callOllama p s env = .fallback (getStructuredFallback p "invalid_structure" ""))
    ∧ (∀ (p s raw : String) (keys : List String) (env : OllamaEnv),
        env.outcome = .ok raw →
        ¬(pyStrip raw = "" ∨ (pyStrip (pyStrip raw)).length < 10) →
        env.jsonLoads (cleanResponseText (pyStrip raw)) = some (.dict keys) →
        (containsSub "field" (lowerStr p) || containsSub "admin" (lowerStr p)) = true →
        (keys.contains "approved" || keys.contains "status" || keys.contains "decision") = false →
        callOllama p s env = .fallback (getStructuredFallback p "missing_fields" ""))
    ∧ (∀ p r d : String, (getStructuredFallback p r d).reasonOf = r)
    ∧ (∀ p r d : String,
        (getStructuredFallback p r d).markerOf =
          if admKw (lowerStr p) then none
          else if pmKw (lowerStr p) then some ("<!--pm-ai-fallback-" ++ r ++ "-->")
          else if govKw (lowerStr p) then some ("<!--governance-bot-fallback-" ++ r ++ "-->")
          else some ("<!--ai-fallback-" ++ r ++ "-->")) := by
  have hshort : ∀ raw : String, (pyStrip raw = "" ∨ (pyStrip (pyStrip raw)).length < 10) →
      (pyStrip raw = "" || (pyStrip (pyStrip raw)).length < 10) = true := by
    intro raw h
    rcases h with h | h <;> simp [h]
  have hlong : ∀ raw : String, ¬(pyStrip raw = "" ∨ (pyStrip (pyStrip raw)).length < 10) →
      (pyStrip raw = "" || (pyStrip (pyStrip raw)).length < 10) = false := by
    intro raw h
    push_neg at h
    simp [h.1, h.2, Nat.not_lt.mpr h.2]
  have hgsf : ∀ p r d : String,
      (getStructuredFallback p r d).reasonOf = r ∧
      (getStructuredFallback p r d).markerOf =
        (if admKw (lowerStr p) then none
         else if pmKw (lowerStr p) then some ("<!--pm-ai-fallback-" ++ r ++ "-->")
         else if govKw (lowerStr p) then some ("<!--governance-bot-fallback-" ++ r ++ "-->")
         else some ("<!--ai-fallback-" ++ r ++ "-->")) := by
    intro p r d
    unfold getStructuredFallback
    by_cases h1 : admKw (lowerStr p)
    · simp [h1, Fallback.reasonOf, Fallback.markerOf]
    · by_cases h2 : pmKw (lowerStr p)
      · simp [h1, h2, Fallback.reasonOf, Fallback.markerOf]
      · by_cases h3 : govKw (lowerStr p)
        · simp [h1, h2, h3, Fallback.reasonOf, Fallback.markerOf]
        · simp [h1, h2, h3, Fallback.reasonOf, Fallback.markerOf]
  refine ⟨?_, ?_, ?_, ?_, ?_, ?_, ?_, fun p r d => (hgsf p r d).1, fun p r d => (hgsf p r d).2⟩
  · intro p s env h
    simp [callOllama, h]
  · intro p s env h
    simp [callOllama, h]
  · intro p s msg env h
    simp [callOllama, h]
  · intro p s raw env h hsh
    simp [callOllama, h, hshort raw hsh]
  · intro p s raw env h hsh hj
    simp [callOllama, h, hlong raw hsh, hj]
  · intro p s raw env h hsh hj hadm
    simp [callOllama, h, hlong raw hsh, hj, hadm]
  · intro p s raw keys env h hsh hj hadm hkeys
    have hk : ("approved" ∉ keys ∧ "status" ∉ keys) ∧ "decision" ∉ keys := by
      simpa using hkeys
    simp [callOllama, h, hlong raw hsh, hj, hadm, hk.1.1, hk.1.2, hk.2]

/-- Claim C6 witness: the amended theorem's conjuncts applied at concrete
inputs — a timeout on a governance-keyword prompt, an invalid-JSON response on
a neutral prompt, and the marker routing evaluated on a governance-only
prompt. -/
theorem ollama_fallback_routing_witness :
    callOllama "governance sweep" "sys" ⟨.timeout, fun _ => none⟩ =
      .fallback (getStructuredFallback "governance sweep" "timeout" "")
    ∧ callOllama "hello there friend" "sys" ⟨.ok "this is not json at all", fun _ => none⟩ =
      .fallback (getStructuredFallback "hello there friend" "invalid_json"
        (cleanResponseText (pyStrip "this is not json at all")))
    ∧ (getStructuredFallback "governance sweep" "timeout" "").markerOf =
      (if admKw (lowerStr "governance sweep") then none
       else if pmKw (lowerStr "governance sweep") then
         some ("<!--pm-ai-fallback-" ++ "timeout" ++ "-->")
       else if govKw (lowerStr "governance sweep") then
         some ("<!--governance-bot-fallback-" ++ "timeout" ++ "-->")
       else some ("<!--ai-fallback-" ++ "timeout" ++ "-->")) := by
  refine ⟨?_, ?_, ?_⟩
  · exact ollama_fallback_routing.1 "governance sweep" "sys" ⟨.timeout, fun _ => none⟩ rfl
  · exact ollama_fallback_routing.2.2.2.2.1 "hello there friend" "sys"
      "this is not json at all" ⟨.ok "this is not json at all", fun _ => none⟩ rfl
      (by decide) rfl
  · exact ollama_fallback_routing.2.2.2.2.2.2.2.2 "governance sweep" "timeout" ""

/-! ## `llm/agents/admin_validator.py` — `process_admin_request` -/

/-- Noun alternation of the `add` pattern and of the looser fallback:
`\b(option|options|value|values|following)\b`. -/
def nounA (tc : String) : Bool :=
  containsWord "option" tc || containsWord "options" tc || containsWord "value" tc ||
  containsWord "values" tc || containsWord "following" tc

/-- Noun alternation of the `remove`/`disable` patterns:
`\b(option|options|value|values)\b`. -/
def nounB (tc : String) : Bool :=
  containsWord "option" tc || containsWord "options" tc || containsWord "value" tc ||
  containsWord "values" tc

/-- Verb alternation of the safety-heuristic fallback:
`\b(add|remove|disable|enable)\b`. -/
def verbList : List (List Char) :=
  ["add".toList, "remove".toList, "disable".toList, "enable".toList]

/-- Operation classification of `process_admin_request` (lines 87–98): the
three primary verb+noun patterns, then the safety-heuristic fallback that also
recognizes `enable` and takes the leftmost verb occurrence. -/
def classifyOperation (tc : String) : Option String :=
  if containsWord "add" tc && nounA tc then some "add"
  else if containsWord "remove" tc && nounB tc then some "remove"
  else if containsWord "disable" tc && nounB tc then some "disable"
  else
    match findFirstWord verbList none tc.toList with
    | some w => if nounA tc then some (String.mk w) else none
    | none => none

/-- One noun alternative of `(?:option|options|value|values) ` followed by its
mandatory space, consumed from the head of the list.  The regex alternatives
are mutually exclusive here, so first-match order is faithful. -/
def matchNoun (l : List Char) : Option (List Char) :=
  if "option ".toList.isPrefixOf l then some (l.drop 7)
  else if "options ".toList.isPrefixOf l then some (l.drop 8)
  else if "value ".toList.isPrefixOf l then some (l.drop 6)
  else if "values ".toList.isPrefixOf l then some (l.drop 7)
  else none

/-- Attempt of the option-values regex
`{op} (?:new )?(?:option|options|value|values) (.+)` at the current position:
on success the greedy `(.+)` capture — the rest of the line, which must be
non-empty. -/
def matchOpPattern (op : List Char) (l : List Char) : Option (List Char) :=
  if op.isPrefixOf l then
    match l.drop op.length with
    | ' ' :: l2 =>
      let l3 := if "new ".toList.isPrefixOf l2 then l2.drop 4 else l2
      match matchNoun l3 with
      | some rest =>
        let line := rest.takeWhile (fun c => c ≠ '\n')
        if line.isEmpty then none else some line
      | none => none
    | _ => none
  else none

/-- `re.search` of the option-values pattern: leftmost match wins. -/
def searchOpPattern (op : List Char) : List Char → Option (List Char)
  | [] => none
  | c :: rest =>
    match matchOpPattern op (c :: rest) with
    | some r => some r
    | none => searchOpPattern op rest

/-- `re.split(r",| and ", vals_part)`: split on every comma or ` and `. -/
def splitOptsAux (cur : List Char) : List Char → List (List Char)
  | [] => [cur.reverse]
  | ',' :: rest => cur.reverse :: splitOptsAux [] rest
  | ' ' :: 'a' :: 'n' :: 'd' :: ' ' :: rest => cur.reverse :: splitOptsAux [] rest
  | c :: rest => splitOptsAux (c :: cur) rest

/-- Option-value parsing of the modify path (lines 102–111): find the pattern,
truncate the captured list at the first `\bto\b`/`\bin\b`, split on commas and
` and `, strip whitespace and quotes, and keep the non-empty values. -/
def parseOptionValues (op : String) (tc : String) : List String :=
  match searchOpPattern op.toList tc.toList with
  | none => []
  | some valsPart =>
    let before := takeBeforeFirstWord ["to".toList, "in".toList] none valsPart
    (splitOptsAux [] before).filterMap
      (fun v =>
        let s := stripQuotes (pyStrip (String.mk v))
        if s = "" then none else some s)

example : parseOptionValues "add" "add options red, blue and green to color" =
    ["red", "blue", "green"] := by rfl

example : parseOptionValues "remove" "remove value \"legacy\" in project abc" =
    ["legacy"] := by rfl

/-- Jira mutations performed by the admin validator, in call order.  Read-only
calls (field listing, context fetch, project resolution) are supplied through
the environment instead; `listOptions` is recorded because claim C5 constrains
its position relative to the option mutations. -/
inductive Effect
  | addComment (body : String)
  | createField (name : String)
  | addOption (val : String)
  | listOptions (fieldId : String) (ctxId : String)
  | disableOption (optId : String)
  | removeOption (optId : String)
deriving DecidableEq, Repr

/-- A custom-field definition as consumed by the agent: display name, id, and
the `schema.custom` type string (`""` when absent). -/
structure FieldMeta where
  name : String
  id : String
  schemaCustom : String
deriving DecidableEq, Repr

/-- An existing option of a field context: id and value. -/
structure JOption where
  id : String
  value : String
deriving DecidableEq, Repr

/-- The result dict of `process_admin_request`: each Python key that some
branch sets, `none` when the branch leaves it out. -/
structure AdminResult where
  success : Option Bool := none
  status : Option String := none
  reason : Option String := none
  risk : Option String := none
  field_created : Option Bool := none
  field_id : Option String := none
  duplicates_found : Option Nat := none
  errorMsg : Option String := none
  field_name : Option String := none
  operation : Option String := none
  blast_radius : Option BRResult := none
deriving Repr

/-- Environment of one `process_admin_request` run: the ticket text, the
field-extractor output (an oracle — `tools/field_extractor.py` heuristics are
not constrained by any claim), and every Jira/LLM response the agent reads.
Per-value HTTP status codes are functions of the option value or option id. -/
structure AdminEnv where
  summary : String
  description : DescValue
  fieldName : String
  extractedOptions : List String
  fieldType : String
  yourProjectDirect : Option String
  projectFieldValue : Option String
  customFieldsOk : Bool
  customFieldsErr : String
  customFields : List FieldMeta
  fieldContexts : List Ctx
  targetProjectId : Option String
  existingOptions : List JOption
  addStatus : String → Nat
  putStatus : String → Nat
  aiError : Bool
  aiApproved : Bool
  aiAutoCreate : Bool
  aiReason : String
  enableFieldCreation : Bool
  createFieldResult : Option String

/-- `text_combined = f"{summary} {description}".lower()`. -/
def adminText (env : AdminEnv) : String :=
  lowerStr (env.summary ++ " " ++ adminExtractDescription env.description)

/-- `custom_fields.get("fields", []) if isinstance(custom_fields, dict) else []`:
the error dict has no `fields` key. -/
def adminAllFields (env : AdminEnv) : List FieldMeta :=
  if env.customFieldsOk then env.customFields else []

/-- Requested option values: the regex parse, or the field extractor's list
when the parse found nothing. -/
def adminOptionValues (env : AdminEnv) (op : String) : List String :=
  let p := parseOptionValues op (adminText env)
  if p.isEmpty then env.extractedOptions else p

/-- Target-project resolution (lines 117–152): the direct `your_project`
payload value when it is a non-blank string, else — when the custom-field
listing succeeded and contains a field named "your project" — that field's
value from the issue, stripped of whitespace and quotes. -/
def resolveProjectKeyOrName (env : AdminEnv) : Option String :=
  let direct : Option String :=
    match env.yourProjectDirect with
    | some s => if pyStrip s = "" then none else some (pyStrip s)
    | none => none
  match direct with
  | some p => some p
  | none =>
    if env.customFieldsOk &&
        (adminAllFields env).any (fun f => lowerStr f.name = "your project") then
      env.projectFieldValue.map (fun v => stripQuotes (pyStrip v))
    else none

/-- Python string interpolation of an optional value (`None` renders as
`"None"`). -/
def optionStr : Option String → String
  | some s => s
  | none => "None"

/-- Accumulated state of the option-update loops. -/
structure ExecSt where
  success : Bool
  errors : List String
  fx : List Effect
deriving DecidableEq, Repr

/-- `resp.status_code in (200, 201, 204)` — the add-option success set. -/
def addOkStatus (st : Nat) : Bool := st = 200 || st = 201 || st = 204

/-- `resp.status_code in (200, 204)` — the disable/remove success set. -/
def changeOkStatus (st : Nat) : Bool := st = 200 || st = 204

/-- The `add` loop: POST each value, tolerate per-value failure. -/
def runAdd (addStatus : String → Nat) : List String → ExecSt
  | [] => ⟨true, [], []⟩
  | v :: vs =>
    let st := addStatus v
    let rest := runAdd addStatus vs
    if addOkStatus st then ⟨rest.success, rest.errors, Effect.addOption v :: rest.fx⟩
    else ⟨false, ("\x27" ++ v ++ "\x27 (HTTP " ++ toString st ++ ")") :: rest.errors,
          Effect.addOption v :: rest.fx⟩

/-- The text of the `AttributeError` raised by `jira._delete(...)`: the
`JiraAPI` class (`jira_api.py`, the staged `tools/jira_api.py`) defines only
`_get`, `_post` and `_put` — there is no `_delete` method anywhere in the
repository, so the remove branch raises before issuing any HTTP call. -/
def attrDeleteError : String :=
  "\x27JiraAPI\x27 object has no attribute \x27_delete\x27"

/-- One iteration of the remove/disable loop for a requested value: the first
case-insensitive match among the existing options is disabled via `_put`
(disable) or — for remove — triggers the `AttributeError` of the missing
`jira._delete`, modelled as `Except.error`; a missing match or a failure
status produces an error entry. -/
def rdStep (op : String) (existing : List JOption) (putStatus : String → Nat)
    (v : String) : Except String (Bool × Option String × List Effect) :=
  match existing.find? (fun o => lowerStr o.value = lowerStr v) with
  | none => .ok (false, some ("\x27" ++ v ++ "\x27 (not found)"), [])
  | some o =>
    if op = "disable" then
      let st := putStatus o.id
      if changeOkStatus st then .ok (true, none, [Effect.disableOption o.id])
      else .ok (false, some ("\x27" ++ v ++ "\x27 (HTTP " ++ toString st ++ ")"),
            [Effect.disableOption o.id])
    else if op = "remove" then .error attrDeleteError
    else .ok (true, none, [])

/-- Outcome of the remove/disable loop: it either runs to completion, or an
iteration raises and the exception escapes the loop carrying the state — in
particular the effects — accumulated before the raise. -/
inductive LoopResult
  | done (st : ExecSt)
  | raised (msg : String) (st : ExecSt)
deriving DecidableEq, Repr

/-- The accumulated state of a loop outcome, raised or not. -/
def LoopResult.accState : LoopResult → ExecSt
  | .done st => st
  | .raised _ st => st

/-- The remove/disable loop over all requested values; the first remove value
with a case-insensitive match aborts the loop with the `AttributeError`. -/
def runRemoveDisable (op : String) (existing : List JOption)
    (putStatus : String → Nat) : List String → LoopResult
  | [] => .done ⟨true, [], []⟩
  | v :: vs =>
    match rdStep op existing putStatus v with
    | .error msg => .raised msg ⟨true, [], []⟩
    | .ok step =>
      match runRemoveDisable op existing putStatus vs with
      | .done rest =>
        .done ⟨step.1 && rest.success,
          (match step.2.1 with | some e => e :: rest.errors | none => rest.errors),
          step.2.2 ++ rest.fx⟩
      | .raised msg rest =>
        .raised msg ⟨step.1 && rest.success,
          (match step.2.1 with | some e => e :: rest.errors | none => rest.errors),
          step.2.2 ++ rest.fx⟩

/-- The final comment of a completed/partial option update. -/
def modifyComment (field_name pk cid op : String) (vals : List String) (st : ExecSt) :
    String :=
  let opLabel := pyTitle op ++ (if vals.length = 1 then " Option" else " Options")
  let statusLine :=
    if st.success then
      if op = "add" then "*Status*: " ++ toString vals.length ++ " option(s) added successfully.\n"
      else if op = "disable" then "*Status*: Option(s) disabled successfully.\n"
      else if op = "remove" then "*Status*: Option(s) removed successfully.\n"
      else ""
    else
      if op = "add" then "*Status*: Partial success – some options failed to add.\n"
      else if op = "disable" then "*Status*: Some options could not be disabled.\n"
      else if op = "remove" then "*Status*: Some options could not be removed.\n"
      else ""
  "🤖 *Admin Validator* " ++ (if st.success then "✅" else "⚠️") ++
  "\n\n*Field Name*: " ++ field_name ++ "\n*Target Project*: " ++ pk ++
  "\n*Context ID*: " ++ cid ++ "\n*Operation*: " ++ opLabel ++ "\n" ++ statusLine ++
  (if st.errors.isEmpty then "" else "*Errors*: " ++ String.intercalate ", " st.errors)

/-- `{target_project_id or 'unknown id'}` in the rejection comments. -/
def targetDisp : Option String → String
  | some t => if t = "" then "unknown id" else t
  | none => "unknown id"

/-- Metadata of the requested field: the first custom field whose lower-cased
name equals the lower-cased requested name. -/
def adminFieldMeta (env : AdminEnv) : Option FieldMeta :=
  (adminAllFields env).find? (fun f => lowerStr f.name = lowerStr env.fieldName)

/-- The resolved target project key/name after the `if not project_key_or_name`
falsiness check (`None` and the empty string both fail it). -/
def adminPk (env : AdminEnv) : Option String :=
  match resolveProjectKeyOrName env with
  | some p => if p = "" then none else some p
  | none => none

/-- The blast-radius call of the modify path, on the fetched (possibly empty)
context list. -/
def adminBR (env : AdminEnv) (fmeta : FieldMeta) : Except String BRResult :=
  analyzeBlastRadius (some env.fieldName)
    (if fmeta.id = "" then [] else env.fieldContexts) env.targetProjectId

/-- The modify path of `process_admin_request` (lines 100–411), entered with
the detected operation type. -/
def adminModify (env : AdminEnv) (op : String) : AdminResult × List Effect :=
  let field_name := env.fieldName
  let option_values := adminOptionValues env op
  match adminFieldMeta env with
  | none =>
    ({ success := some true, status := some "rejected",
       reason := some "field_not_found_for_modify" },
     [.addComment ("🤖 *Admin Validator* ❌\n\n*Field Name*: " ++ field_name ++
       "\n*Operation*: " ++ op ++
       "\n*Status*: Rejected\n*Reason*: Cannot modify options on a field that does not exist.\n")])
  | some fmeta =>
    match adminPk env with
    | none =>
      ({ success := some true, status := some "needs_info", reason := some "no_project" },
       [.addComment "🤖 *Admin Validator*: No project specified in *Your project* field. Cannot proceed."])
    | some pk =>
      match adminBR env fmeta with
      | .error e =>
        -- the TypeError raised for a missing target project id propagates to
        -- the agent's top-level handler, which comments and reports failure
        ({ success := some false, errorMsg := some e },
         [.addComment ("🤖 *Admin Validator* ❌\n\n*Error*: `" ++ e ++ "`")])
      | .ok br0 =>
        let context_id := br0.selected_context_id
        let risk := if context_id = none then "HIGH" else br0.risk_level
        let br : BRResult :=
          if context_id = none then
            ⟨br0.selected_context_id, br0.is_global, br0.project_count, br0.risk_level,
             br0.reason ++ " (no selected context_id)", br0.field_name⟩
          else br0
        let tdisp := targetDisp env.targetProjectId
        if br0.is_global then
          ({ status := some "Rejected", field_name := some field_name, operation := some op,
             reason := some "Applicable context is GLOBAL; manual review required",
             blast_radius := some br },
           [.addComment (String.intercalate "\n\n"
             ["🤖 *Admin Validator* ❌",
              "*Field Name*: " ++ field_name,
              "*Target Project*: " ++ pk ++ " (" ++ tdisp ++ ")",
              "*Context ID*: " ++ optionStr context_id,
              "*Risk Level*: GLOBAL",
              "*Reason*: Applicable context for target project is GLOBAL; option changes affect all projects in that context.",
              "*Recommendation*: Hold – manual review required."])])
        else if risk = "MEDIUM" || risk = "HIGH" || risk = "CRITICAL" then
          ({ success := some true, status := some "held", risk := some risk,
             blast_radius := some br },
           [.addComment ("🤖 *Admin Validator* ❌\n\n*Field Name*: " ++ field_name ++
             "\n*Target Project*: " ++ pk ++ " (" ++ tdisp ++ ")" ++
             "\n*Context ID*: " ++ optionStr context_id ++
             "\n*Projects in Selected Context*: multiple projects" ++
             "\n*Risk Level*: " ++ risk ++ "\n*Reason*: " ++ br.reason ++
             "\n*Recommendation*: Hold – manual review required.")])
        else
          let schema_key := lowerStr fmeta.schemaCustom
          if !(["select", "multiselect", "cascading", "checkbox", "radio"].any
                (fun t => containsSub t schema_key)) then
            ({ success := some true, status := some "not_supported" },
             [.addComment ("🤖 *Admin Validator* ❌\n\n*Field Name*: " ++ field_name ++
               "\n*Status*: Rejected\n*Reason*: Field type does not support selectable options.")])
          else
            let cid := optionStr context_id
            if op = "add" then
              let st := runAdd env.addStatus option_values
              ({ success := some true,
                 status := some (if st.success then "completed" else "partial"),
                 blast_radius := some br },
               st.fx ++ [.addComment (modifyComment field_name pk cid op option_values st)])
            else
              match runRemoveDisable op env.existingOptions env.putStatus option_values with
              | .done r =>
                let st : ExecSt := ⟨r.success, r.errors, Effect.listOptions fmeta.id cid :: r.fx⟩
                ({ success := some true,
                   status := some (if st.success then "completed" else "partial"),
                   blast_radius := some br },
                 st.fx ++ [.addComment (modifyComment field_name pk cid op option_values st)])
              | .raised msg r =>
                -- the AttributeError propagates to the top-level exception handler
                ({ success := some false, errorMsg := some msg },
                 (Effect.listOptions fmeta.id cid :: r.fx) ++
                   [.addComment ("🤖 *Admin Validator* ❌\n\n*Error*: `" ++ msg ++ "`")])

/-- `JiraAPI.check_duplicate_field` (`jira_api.py` lines 117–145): exact
matches on the lower-cased stripped name, substring containment either way for
"similar"; `none` models the error dict of a failed field listing. -/
def checkDuplicateField (env : AdminEnv) (field_name : String) :
    Option (List FieldMeta × List FieldMeta) :=
  if env.customFieldsOk then
    let n := pyStrip (lowerStr field_name)
    some (env.customFields.filter (fun f => pyStrip (lowerStr f.name) = n),
          env.customFields.filter
            (fun f => pyStrip (lowerStr f.name) ≠ n &&
              (containsSub n (pyStrip (lowerStr f.name)) ||
               containsSub (pyStrip (lowerStr f.name)) n)))
  else none

/-- Number of exact duplicates the duplicate check reports for the requested
field name. -/
def dupCount (env : AdminEnv) : Nat :=
  (env.customFields.filter
    (fun f => pyStrip (lowerStr f.name) = pyStrip (lowerStr env.fieldName))).length

/-- The create path of `process_admin_request` (lines 413–498). -/
def adminCreate (env : AdminEnv) : AdminResult × List Effect :=
  let field_name := env.fieldName
  match checkDuplicateField env field_name with
  | none =>
    ({ success := some true, status := some "error", reason := some "duplicate_check_failed" },
     [.addComment ("🤖 *Admin Validator*: Error checking existing fields: " ++
        env.customFieldsErr ++ ". Manual review required.")])
  | some (dups, _sims) =>
    let duplicates_found := dups.length
    let approved := !env.aiError && env.aiApproved
    let reason := if env.aiError then "AI validation failed - manual review required"
                  else env.aiReason
    let auto_create := !env.aiError && env.aiAutoCreate
    let createAttempt := approved && auto_create && (duplicates_found == 0) &&
      env.enableFieldCreation
    let fc : Bool × Option String :=
      if createAttempt then
        match env.createFieldResult with
        | some fid => (true, some fid)
        | none => (false, none)
      else (false, none)
    let fx : List Effect := if createAttempt then [.createField field_name] else []
    let reason2 :=
      if approved && auto_create && (duplicates_found == 0) && !env.enableFieldCreation then
        reason ++ " (auto-creation disabled by policy)"
      else reason
    ({ success := some true,
       status := some (if approved then "approved" else "rejected"),
       field_created := some fc.1, field_id := fc.2,
       duplicates_found := some duplicates_found },
     fx ++ [.addComment ("🤖 *Admin Validator* " ++ (if approved then "✅" else "❌") ++
       "\n\n*Field Name*: " ++ field_name ++
       "\n*Status*: " ++ (if approved then "Approved" else "Rejected") ++
       "\n*Reason*: " ++ reason2 ++ "\n" ++
       (if duplicates_found > 0 then
         "*⚠️ Duplicates Found*: " ++ toString duplicates_found ++ " exact match(es)\n"
        else "") ++
       (if fc.1 then "*✅ Field Created*: ID `" ++ optionStr fc.2 ++ "`\n" else ""))])

/-- `process_admin_request`: empty extracted field name short-circuits; a
detected modify operation takes the modify path and never the create path;
otherwise the create path runs. -/
def processAdminRequest (env : AdminEnv) : AdminResult × List Effect :=
  if env.fieldName = "" then
    ({ success := some true, status := some "needs_info", reason := some "no_field_name" },
     [.addComment "🤖 *Admin Validator*: Could not determine the field name. Please specify it clearly."])
  else
    match classifyOperation (adminText env) with
    | some op => adminModify env op
    | none => adminCreate env

theorem findFirstWord_mem (ws : List (List Char)) :
    ∀ (prev : Option Char) (l : List Char) (w : List Char),
      findFirstWord ws prev l = some w → w ∈ ws := by
  intro prev l
  induction l generalizing prev with
  | nil =>
    intro w h
    simp only [findFirstWord] at h
    exact List.mem_of_find?_eq_some h
  | cons c rest ih =>
    intro w h
    simp only [findFirstWord] at h
    cases hf : ws.find? (fun w2 => wordMatchHere w2 prev (c :: rest)) with
    | some w2 =>
      rw [hf] at h
      cases h
      exact List.mem_of_find?_eq_some hf
    | none =>
      rw [hf] at h
      exact ih (some c) w h

theorem findFirstWord_isSome_mono (w : List Char) (ws : List (List Char)) (hw : w ∈ ws) :
    ∀ (prev : Option Char) (l : List Char),
      (findFirstWord [w] prev l).isSome = true → (findFirstWord ws prev l).isSome = true := by
  intro prev l
  induction l generalizing prev with
  | nil =>
    intro h
    simp only [findFirstWord] at h ⊢
    rw [List.find?_isSome] at h ⊢
    obtain ⟨x, hx, hpx⟩ := h
    simp only [List.mem_singleton] at hx
    exact ⟨w, hw, hx ▸ hpx⟩
  | cons c rest ih =>
    intro h
    simp only [findFirstWord] at h ⊢
    cases hf : ws.find? (fun w2 => wordMatchHere w2 prev (c :: rest)) with
    | some w2 => simp
    | none =>
      have hwfail : wordMatchHere w prev (c :: rest) = false := by
        have := List.find?_eq_none.mp hf w hw
        simpa using this
      cases hf1 : [w].find? (fun w2 => wordMatchHere w2 prev (c :: rest)) with
      | some w1 =>
        have hmem := List.mem_of_find?_eq_some hf1
        simp only [List.mem_singleton] at hmem
        subst hmem
        have hps := List.find?_some hf1
        rw [hwfail] at hps
        cases hps
      | none =>
        rw [hf1] at h
        exact ih (some c) h

theorem classifyOperation_isSome (tc : String)
    (hverb : containsWord "add" tc = true ∨ containsWord "remove" tc = true ∨
             containsWord "disable" tc = true ∨ containsWord "enable" tc = true)
    (hnoun : nounA tc = true) :
    ∃ op, classifyOperation tc = some op ∧
      (op = "add" ∨ op = "remove" ∨ op = "disable" ∨ op = "enable") := by
  unfold classifyOperation
  by_cases h1 : (containsWord "add" tc && nounA tc) = true
  · exact ⟨"add", by rw [if_pos h1], Or.inl rfl⟩
  · rw [if_neg h1]
    by_cases h2 : (containsWord "remove" tc && nounB tc) = true
    · exact ⟨"remove", by rw [if_pos h2], Or.inr (Or.inl rfl)⟩
    · rw [if_neg h2]
      by_cases h3 : (containsWord "disable" tc && nounB tc) = true
      · exact ⟨"disable", by rw [if_pos h3], Or.inr (Or.inr (Or.inl rfl))⟩
      · rw [if_neg h3]
        have hsome : (findFirstWord verbList none tc.toList).isSome = true := by
          rcases hverb with h | h | h | h
          · exact findFirstWord_isSome_mono "add".toList verbList (by simp [verbList])
              none tc.toList h
          · exact findFirstWord_isSome_mono "remove".toList verbList (by simp [verbList])
              none tc.toList h
          · exact findFirstWord_isSome_mono "disable".toList verbList (by simp [verbList])
              none tc.toList h
          · exact findFirstWord_isSome_mono "enable".toList verbList (by simp [verbList])
              none tc.toList h
        obtain ⟨w, hw⟩ := Option.isSome_iff_exists.mp hsome
        have hwmem : w ∈ verbList := findFirstWord_mem verbList none tc.toList w hw
        refine ⟨String.mk w, by rw [hw]; simp [hnoun], ?_⟩
        simp only [verbList, List.mem_cons, List.mem_singleton] at hwmem
        rcases hwmem with h | h | h | (h | h)
        · exact Or.inl (by rw [h]; rfl)
        · exact Or.inr (Or.inl (by rw [h]; rfl))
        · exact Or.inr (Or.inr (Or.inl (by rw [h]; rfl)))
        · exact Or.inr (Or.inr (Or.inr (by rw [h]; rfl)))
        · cases h

theorem runAdd_no_create (f : String → Nat) :
    ∀ (vs : List String) (s : String), Effect.createField s ∉ (runAdd f vs).fx := by
  intro vs
  induction vs with
  | nil => intro s h; simp [runAdd] at h
  | cons v rest ih =>
    intro s
    simp only [runAdd]
    by_cases h : addOkStatus (f v) = true
    · simp only [if_pos h, List.mem_cons]
      rintro (h2 | h2)
      · cases h2
      · exact ih s h2
    · simp only [if_neg h, List.mem_cons]
      rintro (h2 | h2)
      · cases h2
      · exact ih s h2

/-- Effects of one loop iteration, raised iterations contributing none. -/
def rdFx (r : Except String (Bool × Option String × List Effect)) : List Effect :=
  match r with
  | .ok st => st.2.2
  | .error _ => []

theorem rdStep_no_create (op : String) (existing : List JOption)
    (pS : String → Nat) (v s : String) :
    Effect.createField s ∉ rdFx (rdStep op existing pS v) := by
  unfold rdStep
  cases existing.find? (fun o => lowerStr o.value = lowerStr v) with
  | none => simp [rdFx]
  | some o =>
    by_cases h1 : op = "disable"
    · simp only [if_pos h1]
      by_cases hc : changeOkStatus (pS o.id) = true <;> simp [hc, rdFx]
    · simp only [if_neg h1]
      by_cases h2 : op = "remove"
      · simp [h2, rdFx]
      · simp [h1, h2, rdFx]

theorem runRemoveDisable_no_create (op : String) (existing : List JOption)
    (pS : String → Nat) :
    ∀ (vs : List String) (s : String),
      Effect.createField s ∉ (runRemoveDisable op existing pS vs).accState.fx := by
  intro vs
  induction vs with
  | nil => intro s h; simp [runRemoveDisable, LoopResult.accState] at h
  | cons v rest ih =>
    intro s
    simp only [runRemoveDisable]
    cases hs : rdStep op existing pS v with
    | error msg => simp only [hs, LoopResult.accState]; simp
    | ok step =>
      simp only [hs]
      have hstep : Effect.createField s ∉ step.2.2 := by
        have h0 := rdStep_no_create op existing pS v s
        rw [hs] at h0
        simpa [rdFx] using h0
      cases hr : runRemoveDisable op existing pS rest with
      | done r =>
        have h1 := ih s
        rw [hr] at h1
        simp only [LoopResult.accState] at h1
        simp only [hr, LoopResult.accState, List.mem_append]
        rintro (h | h)
        · exact hstep h
        · exact h1 h
      | raised msg r =>
        have h1 := ih s
        rw [hr] at h1
        simp only [LoopResult.accState] at h1
        simp only [hr, LoopResult.accState, List.mem_append]
        rintro (h | h)
        · exact hstep h
        · exact h1 h

theorem mem_ite_snd {C : Prop} [Decidable C] (a b : AdminResult × List Effect) (e : Effect)
    (h : e ∈ (if C then a else b).2) : e ∈ a.2 ∨ e ∈ b.2 := by
  by_cases hc : C
  · rw [if_pos hc] at h; exact Or.inl h
  · rw [if_neg hc] at h; exact Or.inr h

theorem mem_ite_fx {C : Prop} [Decidable C] (a b : ExecSt) (e : Effect)
    (h : e ∈ (if C then a else b).fx) : e ∈ a.fx ∨ e ∈ b.fx := by
  by_cases hc : C
  · rw [if_pos hc] at h; exact Or.inl h
  · rw [if_neg hc] at h; exact Or.inr h

theorem adminModify_no_create (env : AdminEnv) (op : String) :
    ∀ s, Effect.createField s ∉ (adminModify env op).2 := by
  intro s
  unfold adminModify
  cases adminFieldMeta env with
  | none => simp
  | some fmeta =>
    cases adminPk env with
    | none => simp
    | some pk =>
      rcases hab : adminBR env fmeta with e | br0
      · simp [hab]
      · simp only [hab]
        intro h
        rcases mem_ite_snd _ _ _ h with h | h
        · simp at h
        rcases mem_ite_snd _ _ _ h with h | h
        · simp at h
        rcases mem_ite_snd _ _ _ h with h | h
        · simp at h
        rcases mem_ite_snd _ _ _ h with h | h
        · simp only [List.mem_append, List.mem_singleton] at h
          rcases h with h | h
          · exact runAdd_no_create env.addStatus (adminOptionValues env op) s h
          · cases h
        · cases hrr : runRemoveDisable op env.existingOptions env.putStatus
              (adminOptionValues env op) with
          | done r =>
            simp only [hrr] at h
            have h1 := runRemoveDisable_no_create op env.existingOptions env.putStatus
              (adminOptionValues env op) s
            rw [hrr] at h1
            simp only [LoopResult.accState] at h1
            simp only [List.mem_append, List.mem_cons, List.mem_singleton, or_assoc] at h
            rcases h with h | h | h
            · cases h
            · exact h1 h
            · simp at h
          | raised msg r =>
            simp only [hrr] at h
            have h1 := runRemoveDisable_no_create op env.existingOptions env.putStatus
              (adminOptionValues env op) s
            rw [hrr] at h1
            simp only [LoopResult.accState] at h1
            simp only [List.mem_append, List.mem_cons, List.mem_singleton, or_assoc] at h
            rcases h with h | h | h
            · cases h
            · exact h1 h
            · simp at h

/-- Claim C1: text containing a modify verb together with an option-style noun
is always classified as a modify operation; the modify path never calls
`create_custom_field`; and when the named field is not among the instance's
custom fields the result is a rejection with the field-not-found reason. -/
theorem admin_modify_never_creates (env : AdminEnv)
    (hname : env.fieldName ≠ "")
    (hverb : containsWord "add" (adminText env) = true ∨
             containsWord "remove" (adminText env) = true ∨
             containsWord "disable" (adminText env) = true ∨
             containsWord "enable" (adminText env) = true)
    (hnoun : containsWord "option" (adminText env) = true ∨
             containsWord "options" (adminText env) = true ∨
             containsWord "value" (adminText env) = true ∨
             containsWord "values" (adminText env) = true ∨
             containsWord "following" (adminText env) = true) :
    (∃ op, classifyOperation (adminText env) = some op ∧
        (op = "add" ∨ op = "remove" ∨ op = "disable" ∨ op = "enable"))
    ∧ (∀ s, Effect.createField s ∉ (processAdminRequest env).2)
    ∧ ((∀ f ∈ env.customFields, lowerStr f.name ≠ lowerStr env.fieldName) →
        (processAdminRequest env).1.status = some "rejected" ∧
        (processAdminRequest env).1.reason = some "field_not_found_for_modify") := by
  have hna : nounA (adminText env) = true := by
    unfold nounA
    rcases hnoun with h | h | h | h | h <;> simp [h]
  obtain ⟨op, hop, hopv⟩ := classifyOperation_isSome (adminText env) hverb hna
  have hshape : processAdminRequest env = adminModify env op := by
    simp [processAdminRequest, hname, hop]
  refine ⟨⟨op, hop, hopv⟩, ?_, ?_⟩
  · intro s
    rw [hshape]
    exact adminModify_no_create env op s
  · intro hnf
    rw [hshape]
    have hfind : adminFieldMeta env = none := by
      rw [adminFieldMeta, List.find?_eq_none]
      intro f hf
      have hf2 : f ∈ env.customFields := by
        unfold adminAllFields at hf
        by_cases hok : env.customFieldsOk = true
        · rw [if_pos hok] at hf; exact hf
        · rw [if_neg hok] at hf; cases hf
      simp [hnf f hf2]
    simp [adminModify, hfind]

/-- Claim C1 witness: "add options red, blue to Color" with no matching custom
field — classified as a modify, rejected, and no field creation occurs. -/
theorem admin_modify_never_creates_witness :
    (∃ op, classifyOperation (adminText
        ⟨"add options red, blue to Color", .str "", "Color", [], "select", none, none,
         true, "", [⟨"Priority", "customfield_1", "select"⟩], [], none, [],
         fun _ => 204, fun _ => 204, false, false, false, "", false, none⟩) =
          some op ∧ (op = "add" ∨ op = "remove" ∨ op = "disable" ∨ op = "enable"))
    ∧ (∀ s, Effect.createField s ∉ (processAdminRequest
        ⟨"add options red, blue to Color", .str "", "Color", [], "select", none, none,
         true, "", [⟨"Priority", "customfield_1", "select"⟩], [], none, [],
         fun _ => 204, fun _ => 204, false, false, false, "", false, none⟩).2)
    ∧ ((processAdminRequest
        ⟨"add options red, blue to Color", .str "", "Color", [], "select", none, none,
         true, "", [⟨"Priority", "customfield_1", "select"⟩], [], none, [],
         fun _ => 204, fun _ => 204, false, false, false, "", false, none⟩).1.status =
          some "rejected" ∧
        (processAdminRequest
        ⟨"add options red, blue to Color", .str "", "Color", [], "select", none, none,
         true, "", [⟨"Priority", "customfield_1", "select"⟩], [], none, [],
         fun _ => 204, fun _ => 204, false, false, false, "", false, none⟩).1.reason =
          some "field_not_found_for_modify") := by
  have h := admin_modify_never_creates
    ⟨"add options red, blue to Color", .str "", "Color", [], "select", none, none,
     true, "", [⟨"Priority", "customfield_1", "select"⟩], [], none, [],
     fun _ => 204, fun _ => 204, false, false, false, "", false, none⟩
    (by decide) (Or.inl (by rfl)) (Or.inr (Or.inl (by rfl)))
  exact ⟨h.1, h.2.1, h.2.2 (by intro f hf; fin_cases hf; decide)⟩

/-- Claim C4: in the create path, the field-creation call happens exactly when
the LLM response reports approved and auto_create, the duplicate check found
zero exact duplicates, and the configuration's creation flag is enabled; when
it happens and Jira returns the new field id, the result reports
`field_created = true` with that id; and any exact duplicate forces
`field_created = false` no matter what the LLM answered. -/
theorem admin_create_gating (env : AdminEnv) (fid : String)
    (hname : env.fieldName ≠ "")
    (hop : classifyOperation (adminText env) = none)
    (hok : env.customFieldsOk = true) :
    ((Effect.createField env.fieldName ∈ (processAdminRequest env).2) ↔
      (env.aiError = false ∧ env.aiApproved = true ∧ env.aiAutoCreate = true ∧
       dupCount env = 0 ∧ env.enableFieldCreation = true))
    ∧ (env.aiError = false → env.aiApproved = true → env.aiAutoCreate = true →
       dupCount env = 0 → env.enableFieldCreation = true →
       env.createFieldResult = some fid →
       (processAdminRequest env).1.field_created = some true ∧
       (processAdminRequest env).1.field_id = some fid)
    ∧ (0 < dupCount env → (processAdminRequest env).1.field_created = some false) := by
  have hshape : processAdminRequest env = adminCreate env := by
    simp [processAdminRequest, hname, hop]
  have hdc : checkDuplicateField env env.fieldName =
      some (env.customFields.filter
              (fun f => pyStrip (lowerStr f.name) = pyStrip (lowerStr env.fieldName)),
            env.customFields.filter
              (fun f => pyStrip (lowerStr f.name) ≠ pyStrip (lowerStr env.fieldName) &&
                (containsSub (pyStrip (lowerStr env.fieldName)) (pyStrip (lowerStr f.name)) ||
                 containsSub (pyStrip (lowerStr f.name)) (pyStrip (lowerStr env.fieldName))))) := by
    simp [checkDuplicateField, hok]
  have hlen : (env.customFields.filter
      (fun f => pyStrip (lowerStr f.name) = pyStrip (lowerStr env.fieldName))).length =
      dupCount env := rfl
  rw [hshape]
  unfold adminCreate
  simp only [hdc, hlen]
  refine ⟨?_, ?_, ?_⟩
  · cases hE : env.aiError <;> cases hA : env.aiApproved <;>
      cases hC : env.aiAutoCreate <;> cases hF : env.enableFieldCreation <;>
      by_cases hD : dupCount env = 0 <;>
      simp [hE, hA, hC, hF, hD]
  · intro h1 h2 h3 h4 h5 h6
    simp [h1, h2, h3, h4, h5, h6]
  · intro hd
    have hbeq : (dupCount env == 0) = false :=
      beq_eq_false_iff_ne.mpr (by omega)
    simp [hbeq]

/-- Claim C4 witness: a creation request with zero duplicates, an approving
LLM answer, creation enabled, and a successful Jira response. -/
theorem admin_create_gating_witness :
    ((Effect.createField "Color" ∈ (processAdminRequest
        ⟨"please make a new custom dropdown named Color", .str "", "Color", [], "select",
         none, none, true, "", [⟨"Priority", "customfield_1", "select"⟩], [], none, [],
         fun _ => 204, fun _ => 204, false, true, true, "ok", true,
         some "customfield_99"⟩).2))
    ∧ (processAdminRequest
        ⟨"please make a new custom dropdown named Color", .str "", "Color", [], "select",
         none, none, true, "", [⟨"Priority", "customfield_1", "select"⟩], [], none, [],
         fun _ => 204, fun _ => 204, false, true, true, "ok", true,
         some "customfield_99"⟩).1.field_created = some true
    ∧ (processAdminRequest
        ⟨"please make a new custom dropdown named Color", .str "", "Color", [], "select",
         none, none, true, "", [⟨"Priority", "customfield_1", "select"⟩], [], none, [],
         fun _ => 204, fun _ => 204, false, true, true, "ok", true,
         some "customfield_99"⟩).1.field_id = some "customfield_99" := by
  have h := admin_create_gating
    ⟨"please make a new custom dropdown named Color", .str "", "Color", [], "select",
     none, none, true, "", [⟨"Priority", "customfield_1", "select"⟩], [], none, [],
     fun _ => 204, fun _ => 204, false, true, true, "ok", true,
     some "customfield_99"⟩ "customfield_99"
    (by decide) (by rfl) (by rfl)
  have h2 := h.2.1 rfl rfl rfl (by rfl) rfl rfl
  exact ⟨h.1.mpr ⟨rfl, rfl, rfl, by rfl, rfl⟩, h2.1, h2.2⟩

/-- Field metadata used by the claim C5 theorem. -/
def c5Meta : FieldMeta :=
  ⟨"Color", "customfield_10", "com.atlassian.jira.plugin.system.customfieldtypes:select"⟩

/-- Claim C5 failing input: a LOW-risk "remove options Red, Blue" request
against a single-project context where only "Red" exists as an option. -/
def c5Env : AdminEnv :=
  ⟨"remove options Red, Blue", .str "", "Color", [], "select", some "SBX", none,
   true, "", [c5Meta], [⟨some "100", none, some ["10001"], none, none, none⟩],
   some "10001", [⟨"1", "Red"⟩],
   fun _ => 204, fun _ => 204, false, false, false, "", false, none⟩

/-- The same request with operation disable instead of remove. -/
def c5DisEnv : AdminEnv :=
  ⟨"disable options Red, Blue", .str "", "Color", [], "select", some "SBX", none,
   true, "", [c5Meta], [⟨some "100", none, some ["10001"], none, none, none⟩],
   some "10001", [⟨"1", "Red"⟩],
   fun _ => 204, fun _ => 204, false, false, false, "", false, none⟩

/-- Claim C5: evaluation at the failing input.  The disable half behaves as
the claim says — the existing options are listed first, "red" matches "Red"
case-insensitively and its id is disabled, "blue" is recorded as not found,
making the status partial.  The remove half cannot: `JiraAPI` defines no
`_delete`, so the first matched remove value raises `AttributeError`, the
agent's top-level handler posts an error comment, and the result is
`success: false` with the exception text — no option is deleted, no per-value
error list is produced, and no completed/partial status is reported. -/
theorem admin_remove_attribute_error :
    (processAdminRequest c5Env).1.success = some false
    ∧ (processAdminRequest c5Env).1.errorMsg = some attrDeleteError
    ∧ (processAdminRequest c5Env).1.status = none
    ∧ (processAdminRequest c5Env).2 =
        [Effect.listOptions "customfield_10" "100",
         Effect.addComment ("🤖 *Admin Validator* ❌\n\n*Error*: `" ++ attrDeleteError ++ "`")]
    ∧ (processAdminRequest c5DisEnv).1.status = some "partial"
    ∧ (processAdminRequest c5DisEnv).2 =
        [Effect.listOptions "customfield_10" "100", Effect.disableOption "1",
         Effect.addComment (modifyComment "Color" "SBX" "100" "disable" ["red", "blue"]
           ⟨false, ["\x27blue\x27 (not found)"],
            [Effect.listOptions "customfield_10" "100", Effect.disableOption "1"]⟩)]
    ∧ runRemoveDisable "disable" c5DisEnv.existingOptions c5DisEnv.putStatus
        (adminOptionValues c5DisEnv "disable") =
      .done ⟨false, ["\x27blue\x27 (not found)"], [Effect.disableOption "1"]⟩ := by
  exact ⟨rfl, rfl, rfl, rfl, rfl, rfl, rfl⟩

end JiraAgents
